import Mathlib

/-!
# QuackFIX — verification of the FIX log reader core

Shallow embedding of the QuackFIX DuckDB extension's parsing pipeline:
the zero-copy tokenizer (`src/parser/fix_tokenizer.cpp`), the
dictionary-driven repeating-group parser (`fix_group_parser.cpp`), the
lenient type coercions (`fix_type_conversions.cpp` and the inline copies
in `read_fix_function.cpp`), and the bind/scan driver's error
accumulation and custom-tag resolution (`read_fix_function.cpp`).

Byte buffers are modelled as `List Char`; the C++ `(pointer, length)`
slices become `Option (List Char)` (`none` = null pointer).  The
19 named hot-slot members of `ParsedFixMessage` are modelled as one map
`hot : Nat → Option Val` indexed by the hot tag, with the named
accessors (`msg_type` = `hot 35`, …) defined below; the 19-way `switch`
statements of `ParseTag` and of the custom-tag extraction become a
membership test against the 19-element hot-tag set plus a pointwise
update/read of that map.  The `std::unordered_map` overflow map is
modelled by its lookup function `Nat → Option (List Char)` (the C++
`operator[]` write is an overwrite, the reads are `find`); iteration
order of the map is never relied on by the claims proved here.
`raw_message` is a verbatim copy of the input buffer and is omitted
from the structure.
-/

/-- A borrowed value slice of the input buffer. -/
abbrev Val := List Char

/-- The 19 hot tags of `fix_hot_tags.hpp`, in declaration order:
MsgType, SenderCompID, TargetCompID, MsgSeqNum, SendingTime, ClOrdID,
OrderID, ExecID, Symbol, Side, ExecType, OrdStatus, Price, OrderQty,
CumQty, LeavesQty, LastPx, LastQty, Text. -/
def hotTagList : List Nat :=
  [35, 49, 56, 34, 52, 11, 37, 17, 55, 54, 150, 39, 44, 38, 14, 151, 31, 32, 58]

/-- `ParsedFixMessage` (fix_message.hpp): the 19 promoted hot slots
(as a map from hot tag to slot), the overflow map for the remaining
tags, the ordered tag sequence, and the structural parse error
(`""` = none). -/
structure ParsedFixMessage where
  hot : Nat → Option Val := fun _ => none
  other_tags : Nat → Option Val := fun _ => none
  all_tags_ordered : List (Nat × Val) := []
  parse_error : String := ""

/-- Hot slot for tag 35 (`msg.msg_type` / `msg_type_len`). -/
def ParsedFixMessage.msg_type (m : ParsedFixMessage) : Option Val := m.hot 35

/-- Hot slot for tag 34 (`msg.msg_seq_num`). -/
def ParsedFixMessage.msg_seq_num (m : ParsedFixMessage) : Option Val := m.hot 34

/-- Hot slot for tag 52 (`msg.sending_time`). -/
def ParsedFixMessage.sending_time (m : ParsedFixMessage) : Option Val := m.hot 52

/-- Hot slot for tag 55 (`msg.symbol`). -/
def ParsedFixMessage.symbol (m : ParsedFixMessage) : Option Val := m.hot 55

/-- Hot slot for tag 44 (`msg.price`). -/
def ParsedFixMessage.price (m : ParsedFixMessage) : Option Val := m.hot 44

/-- Hot slot for tag 38 (`msg.order_qty`). -/
def ParsedFixMessage.order_qty (m : ParsedFixMessage) : Option Val := m.hot 38

/-- Hot slot for tag 14 (`msg.cum_qty`). -/
def ParsedFixMessage.cum_qty (m : ParsedFixMessage) : Option Val := m.hot 14

/-- Hot slot for tag 151 (`msg.leaves_qty`). -/
def ParsedFixMessage.leaves_qty (m : ParsedFixMessage) : Option Val := m.hot 151

/-- Hot slot for tag 31 (`msg.last_px`). -/
def ParsedFixMessage.last_px (m : ParsedFixMessage) : Option Val := m.hot 31

/-- Hot slot for tag 32 (`msg.last_qty`). -/
def ParsedFixMessage.last_qty (m : ParsedFixMessage) : Option Val := m.hot 32

/-- The `switch (tag)` of `FixTokenizer::ParseTag`: a hot tag fills its
slot, every other tag is written into the overflow map (last write
wins, `msg.other_tags[tag] = {value, value_len}`). -/
def setTag (tag : Nat) (value : Val) (msg : ParsedFixMessage) : ParsedFixMessage :=
  if tag ∈ hotTagList then
    { msg with hot := fun s => if s = tag then some value else msg.hot s }
  else
    { msg with other_tags := fun s => if s = tag then some value else msg.other_tags s }

/-- The `switch (tag_num)` of the custom-tag column extraction in
`ReadFixScan`: a hot tag reads its slot, anything else the overflow
map. -/
def getHotSlot (msg : ParsedFixMessage) (tag : Nat) : Option Val :=
  if tag ∈ hotTagList then msg.hot tag else msg.other_tags tag

/-- `str[i] >= '0' && str[i] <= '9'` of `FixTokenizer::IsNumeric`. -/
def isDigitC (c : Char) : Bool := '0' ≤ c && c ≤ '9'

/-- `FixTokenizer::IsNumeric`: non-empty run of ASCII digits. -/
def FixTokenizer.IsNumeric (s : Val) : Bool := !s.isEmpty && s.all isDigitC

/-- `FixTokenizer::ExtractTagNumber`: numeric check then manual decimal
conversion.  (The C++ accumulates into an `int`; overflow on absurdly long
digit strings is not modelled.) -/
def FixTokenizer.ExtractTagNumber (s : Val) : Option Nat :=
  if FixTokenizer.IsNumeric s then
    some (s.foldl (fun a c => a * 10 + (c.toNat - 48)) 0)
  else none

/-- `FixTokenizer::ParseTag`: extract the tag number, append the pair to
the ordered sequence, then route it via the hot-tag switch.  `none`
models the `return false` on a non-numeric tag. -/
def FixTokenizer.ParseTag (tagStr : Val) (value : Val) (msg : ParsedFixMessage) :
    Option ParsedFixMessage :=
  match FixTokenizer.ExtractTagNumber tagStr with
  | none => none
  | some tag =>
      some (setTag tag value
        { msg with all_tags_ordered := msg.all_tags_ordered ++ [(tag, value)] })

/-- Position of the first `'='` in a segment (`eq_pos` scan in
`FixTokenizer::Parse`); `none` models `eq_pos >= pair_len`. -/
def findEqPos : Val → Option Nat
  | [] => none
  | c :: rest => if c = '=' then some 0 else (findEqPos rest).map (· + 1)

/-- The delimiter scan of `FixTokenizer::Parse`: the position loop visits
exactly the delimiter-separated segments of the buffer (a trailing empty
segment is never visited, but empty segments are skipped anyway by the
`pair_len > 0` guard, so the plain split is an equivalent model). -/
def splitSegs (d : Char) : Val → List Val
  | [] => [[]]
  | c :: rest =>
      if c = d then [] :: splitSegs d rest
      else
        match splitSegs d rest with
        | [] => [[c]]
        | s :: ss => (c :: s) :: ss

/-- The segment loop of `FixTokenizer::Parse`: skip empty segments,
abort with the structural error string on a malformed one, otherwise
route the pair and count it.  Returns (message, tag_count, ok). -/
def runSegs : List Val → ParsedFixMessage → Nat → ParsedFixMessage × Nat × Bool
  | [], msg, cnt => (msg, cnt, true)
  | seg :: rest, msg, cnt =>
      if seg.isEmpty then runSegs rest msg cnt
      else
        match findEqPos seg with
        | none => ({ msg with parse_error := "Invalid tag format (missing '=')" }, cnt, false)
        | some i =>
            match FixTokenizer.ParseTag (seg.take i) (seg.drop (i + 1)) msg with
            | none => ({ msg with parse_error := "Failed to parse tag" }, cnt, false)
            | some msg2 => runSegs rest msg2 (cnt + 1)

/-- `FixTokenizer::Parse`: empty-input check, segment loop, then the
`tag_count` and MsgType validations, in source order. -/
def FixTokenizer.Parse (input : Val) (delimiter : Char) : ParsedFixMessage × Bool :=
  let msg0 : ParsedFixMessage := {}
  if input.isEmpty then ({ msg0 with parse_error := "Empty message" }, false)
  else
    let r := runSegs (splitSegs delimiter input) msg0 0
    if !r.2.2 then (r.1, false)
    else if r.2.1 = 0 then ({ r.1 with parse_error := "No valid tags found" }, false)
    else
      match r.1.msg_type with
      | none => ({ r.1 with parse_error := "Missing required tag 35 (MsgType)" }, false)
      | some v =>
          if v.isEmpty then
            ({ r.1 with parse_error := "Missing required tag 35 (MsgType)" }, false)
          else (r.1, true)

/-! ## Input-level (spec-side) description of the tokenizer

These definitions restate, directly over the delimiter-separated
segments of the input, what §4.2 of the spec says the tokenizer does;
the refinement theorems below compare them with the state-machine
embedding `FixTokenizer.Parse` above. -/

/-- The `(tag, value)` pair of one segment, `none` if the segment is
malformed (no `'='`, or a non-numeric tag). -/
def segPair (s : Val) : Option (Nat × Val) :=
  match findEqPos s with
  | none => none
  | some i =>
      match FixTokenizer.ExtractTagNumber (s.take i) with
      | none => none
      | some t => some (t, s.drop (i + 1))

/-- The pairs actually routed by the scan: empty segments are skipped,
and the scan stops at the first malformed segment. -/
def pairsOf : List Val → List (Nat × Val)
  | [] => []
  | s :: rest =>
      if s.isEmpty then pairsOf rest
      else
        match segPair s with
        | none => []
        | some p => p :: pairsOf rest

/-- The structural error of the scan over the segments, `none` if every
non-empty segment is well formed. -/
def segsError : List Val → Option String
  | [] => none
  | s :: rest =>
      if s.isEmpty then segsError rest
      else
        match findEqPos s with
        | none => some "Invalid tag format (missing '=')"
        | some i =>
            match FixTokenizer.ExtractTagNumber (s.take i) with
            | none => some "Failed to parse tag"
            | some _ => segsError rest

/-- Number of non-empty segments (the `tag_count` of a clean scan). -/
def nonemptyCount (segs : List Val) : Nat := (segs.filter (fun s => !s.isEmpty)).length

/-- Value of the last occurrence of tag `t` in an ordered tag sequence. -/
def lastValue (t : Nat) : List (Nat × Val) → Option Val
  | [] => none
  | (a, v) :: rest =>
      match lastValue t rest with
      | some w => some w
      | none => if a = t then some v else none

/-- The wire-order pair list of the whole input. -/
def wirePairs (input : Val) (d : Char) : List (Nat × Val) := pairsOf (splitSegs d input)

/-- Spec-side description of the structural error recorded by
`FixTokenizer::Parse` (`""` on success): empty input, then the first
malformed segment's error, then the no-tags check, then the MsgType
check. -/
def specErrorOf (input : Val) (d : Char) : String :=
  if input.isEmpty then "Empty message"
  else
    match segsError (splitSegs d input) with
    | some e => e
    | none =>
        if nonemptyCount (splitSegs d input) = 0 then "No valid tags found"
        else
          match lastValue 35 (wirePairs input d) with
          | none => "Missing required tag 35 (MsgType)"
          | some v =>
              if v.isEmpty then "Missing required tag 35 (MsgType)" else ""

example : (FixTokenizer.Parse "35=D|49=S".data '|').2 = true := by decide
example : (FixTokenizer.Parse "35=D|x".data '|').2 = false := by decide
example : (FixTokenizer.Parse "35=D|x".data '|').1.parse_error =
    "Invalid tag format (missing '=')" := by decide
example : specErrorOf "35=D|x".data '|' = "Invalid tag format (missing '=')" := by decide
example : (FixTokenizer.Parse "49=S".data '|').1.parse_error =
    "Missing required tag 35 (MsgType)" := by decide
example : (FixTokenizer.Parse [] '|').1.parse_error = "Empty message" := by decide
example : (FixTokenizer.Parse "|||".data '|').1.parse_error = "No valid tags found" := by
  decide
example : (FixTokenizer.Parse "35=D|55=A|55=B".data '|').1.symbol = some "B".data := by
  decide
example : getHotSlot (FixTokenizer.Parse "35=D|55=A|55=B".data '|').1 55 =
    some "B".data := by decide
example : (FixTokenizer.Parse "35=D|0=abc".data '|').1.other_tags 0 = some "abc".data := by
  decide

/-! ## Helper lemmas: frame conditions of `setTag` and `getHotSlot` -/

theorem setTag_all_tags_ordered (tag : Nat) (v : Val) (m : ParsedFixMessage) :
    (setTag tag v m).all_tags_ordered = m.all_tags_ordered := by
  unfold setTag; split_ifs <;> rfl

theorem setTag_parse_error (tag : Nat) (v : Val) (m : ParsedFixMessage) :
    (setTag tag v m).parse_error = m.parse_error := by
  unfold setTag; split_ifs <;> rfl

theorem getHotSlot_set_parse_error (m : ParsedFixMessage) (e : String) (t : Nat) :
    getHotSlot { m with parse_error := e } t = getHotSlot m t := by
  unfold getHotSlot; split_ifs <;> rfl

theorem getHotSlot_set_ordered (m : ParsedFixMessage) (l : List (Nat × Val)) (t : Nat) :
    getHotSlot { m with all_tags_ordered := l } t = getHotSlot m t := by
  unfold getHotSlot; split_ifs <;> rfl

theorem hotSlot_setTag (tag : Nat) (v : Val) (m : ParsedFixMessage) (t : Nat)
    (ht : t ∈ hotTagList) :
    getHotSlot (setTag tag v m) t = if tag = t then some v else getHotSlot m t := by
  unfold setTag getHotSlot
  by_cases htag : tag ∈ hotTagList
  · by_cases he : tag = t
    · subst he; simp [htag, ht]
    · simp only [htag, if_true, ht, if_neg he]
      have : ¬ t = tag := fun h => he h.symm
      simp [this]
  · have hne : ¬ tag = t := fun h => htag (h ▸ ht)
    simp [htag, ht, hne]

/-! ## The segment loop refines the input-level description -/

theorem runSegs_ordered (segs : List Val) (msg : ParsedFixMessage) (cnt : Nat) :
    ((runSegs segs msg cnt).1).all_tags_ordered = msg.all_tags_ordered ++ pairsOf segs := by
  induction segs generalizing msg cnt with
  | nil => simp [runSegs, pairsOf]
  | cons s rest ih =>
    unfold runSegs pairsOf
    by_cases hs : s.isEmpty
    · simp [hs, ih]
    · simp only [hs, Bool.false_eq_true, if_false]
      cases hfe : findEqPos s with
      | none => simp [segPair, hfe]
      | some i =>
        cases het : FixTokenizer.ExtractTagNumber (s.take i) with
        | none => simp [segPair, hfe, het, FixTokenizer.ParseTag]
        | some tg =>
          simp [segPair, hfe, het, FixTokenizer.ParseTag, ih, setTag_all_tags_ordered]

theorem runSegs_hotSlot (segs : List Val) (msg : ParsedFixMessage) (cnt : Nat) (t : Nat)
    (ht : t ∈ hotTagList) :
    getHotSlot ((runSegs segs msg cnt).1) t =
      match lastValue t (pairsOf segs) with
      | some w => some w
      | none => getHotSlot msg t := by
  induction segs generalizing msg cnt with
  | nil => simp [runSegs, pairsOf, lastValue]
  | cons s rest ih =>
    unfold runSegs pairsOf
    by_cases hs : s.isEmpty
    · simp [hs, ih]
    · simp only [hs, Bool.false_eq_true, if_false]
      cases hfe : findEqPos s with
      | none => simp [segPair, hfe, lastValue, getHotSlot_set_parse_error]
      | some i =>
        cases het : FixTokenizer.ExtractTagNumber (s.take i) with
        | none =>
          simp [segPair, hfe, het, FixTokenizer.ParseTag, lastValue,
            getHotSlot_set_parse_error]
        | some tg =>
          simp only [segPair, hfe, het, FixTokenizer.ParseTag, ih, lastValue]
          have hset := hotSlot_setTag tg (s.drop (i + 1))
            { msg with all_tags_ordered := msg.all_tags_ordered ++ [(tg, s.drop (i + 1))] } t ht
          rw [hset, getHotSlot_set_ordered]
          cases lastValue t (pairsOf rest) with
          | some w => simp
          | none =>
            by_cases htg : tg = t
            · simp [htg]
            · simp [htg]

theorem runSegs_err_some (segs : List Val) (msg : ParsedFixMessage) (cnt : Nat) (e : String)
    (h : segsError segs = some e) :
    (runSegs segs msg cnt).2.2 = false ∧ ((runSegs segs msg cnt).1).parse_error = e := by
  induction segs generalizing msg cnt with
  | nil => simp [segsError] at h
  | cons s rest ih =>
    unfold runSegs
    unfold segsError at h
    by_cases hs : s.isEmpty
    · simp only [hs, if_true] at h ⊢
      exact ih msg cnt h
    · simp only [hs, Bool.false_eq_true, if_false] at h ⊢
      cases hfe : findEqPos s with
      | none => simp [hfe] at h; simp [hfe, h]
      | some i =>
        simp only [hfe] at h
        cases het : FixTokenizer.ExtractTagNumber (s.take i) with
        | none =>
          simp [het] at h
          simp [hfe, FixTokenizer.ParseTag, het, h]
        | some tg =>
          simp only [het] at h
          simp only [hfe, FixTokenizer.ParseTag, het]
          exact ih _ _ h

theorem runSegs_err_none (segs : List Val) (msg : ParsedFixMessage) (cnt : Nat)
    (h : segsError segs = none) :
    (runSegs segs msg cnt).2.2 = true ∧
      ((runSegs segs msg cnt).1).parse_error = msg.parse_error ∧
      (runSegs segs msg cnt).2.1 = cnt + nonemptyCount segs := by
  induction segs generalizing msg cnt with
  | nil => simp [runSegs, nonemptyCount]
  | cons s rest ih =>
    unfold runSegs
    unfold segsError at h
    by_cases hs : s.isEmpty
    · simp only [hs, if_true] at h ⊢
      simpa [nonemptyCount, hs] using ih msg cnt h
    · simp only [hs, Bool.false_eq_true, if_false] at h ⊢
      cases hfe : findEqPos s with
      | none => simp [hfe] at h
      | some i =>
        simp only [hfe] at h
        cases het : FixTokenizer.ExtractTagNumber (s.take i) with
        | none => simp [het] at h
        | some tg =>
          simp only [het] at h
          simp only [FixTokenizer.ParseTag, het]
          have hrec := ih (setTag tg (s.drop (i + 1))
            { msg with all_tags_ordered := msg.all_tags_ordered ++ [(tg, s.drop (i + 1))] })
            (cnt + 1) h
          refine ⟨hrec.1, ?_, ?_⟩
          · rw [hrec.2.1, setTag_parse_error]
          · rw [hrec.2.2]
            simp only [nonemptyCount, List.filter, hs]
            simp [nonemptyCount]
            omega

theorem getHotSlot_msg_type (m : ParsedFixMessage) : getHotSlot m 35 = m.msg_type := by
  unfold getHotSlot ParsedFixMessage.msg_type
  rw [if_pos (by decide)]

theorem getHotSlot_default (t : Nat) : getHotSlot {} t = none := by
  unfold getHotSlot; split_ifs <;> rfl

theorem runSegs_msg_type (segs : List Val) :
    ((runSegs segs ({} : ParsedFixMessage) 0).1).msg_type = lastValue 35 (pairsOf segs) := by
  have h := runSegs_hotSlot segs {} 0 35 (by decide)
  rw [getHotSlot_msg_type] at h
  rw [h]
  cases lastValue 35 (pairsOf segs) <;> simp [getHotSlot_default]

theorem segsError_mem (segs : List Val) (e : String) (h : segsError segs = some e) :
    e = "Invalid tag format (missing '=')" ∨ e = "Failed to parse tag" := by
  induction segs with
  | nil => simp [segsError] at h
  | cons s rest ih =>
    unfold segsError at h
    by_cases hs : s.isEmpty
    · simp only [hs, if_true] at h; exact ih h
    · simp only [hs, Bool.false_eq_true, if_false] at h
      cases hfe : findEqPos s with
      | none => simp [hfe] at h; simp [h]
      | some i =>
        simp only [hfe] at h
        cases het : FixTokenizer.ExtractTagNumber (s.take i) with
        | none => simp [het] at h; simp [h]
        | some tg => simp only [het] at h; exact ih h

theorem parse_ordered (input : Val) (d : Char) :
    ((FixTokenizer.Parse input d).1).all_tags_ordered = wirePairs input d := by
  unfold FixTokenizer.Parse wirePairs
  by_cases hin : input.isEmpty
  · have : input = [] := List.isEmpty_iff.mp hin
    subst this; rfl
  · simp only [hin, Bool.false_eq_true, if_false]
    split
    · simpa using runSegs_ordered (splitSegs d input) {} 0
    · split
      · simpa using runSegs_ordered (splitSegs d input) {} 0
      · split
        · simpa using runSegs_ordered (splitSegs d input) {} 0
        · split
          · simpa using runSegs_ordered (splitSegs d input) {} 0
          · simpa using runSegs_ordered (splitSegs d input) {} 0

theorem parse_hotSlot (input : Val) (d : Char) (t : Nat) (ht : t ∈ hotTagList) :
    getHotSlot ((FixTokenizer.Parse input d).1) t = lastValue t (wirePairs input d) := by
  have hbase : getHotSlot ((runSegs (splitSegs d input) ({} : ParsedFixMessage) 0).1) t =
      lastValue t (pairsOf (splitSegs d input)) := by
    rw [runSegs_hotSlot (splitSegs d input) {} 0 t ht]
    cases lastValue t (pairsOf (splitSegs d input)) <;> simp [getHotSlot_default]
  unfold FixTokenizer.Parse wirePairs
  by_cases hin : input.isEmpty
  · have : input = [] := List.isEmpty_iff.mp hin
    subst this
    simp only [List.isEmpty_nil, if_true]
    unfold getHotSlot
    split_ifs
    all_goals rfl
  · simp only [hin, Bool.false_eq_true, if_false]
    split
    · simpa using hbase
    · split
      · simpa [getHotSlot_set_parse_error] using hbase
      · split
        · simpa [getHotSlot_set_parse_error] using hbase
        · split
          · simpa [getHotSlot_set_parse_error] using hbase
          · simpa using hbase

/-- C1 (amended): the tokenizer's recorded error (and hence its
success/failure) is exactly the spec-side `specErrorOf` decision:
success requires additionally that every non-empty segment is well
formed (the original iff fails when a structural error follows a valid
`35=` segment); on failure the recorded error is exactly one of the
five fixed strings, chosen as `specErrorOf` describes. -/
theorem tokenizer_parse_error_matches_spec (input : Val) (d : Char) :
    ((FixTokenizer.Parse input d).1).parse_error = specErrorOf input d ∧
    ((FixTokenizer.Parse input d).2 = true ↔ specErrorOf input d = "") ∧
    (specErrorOf input d = "" ∨
      specErrorOf input d ∈ (["Empty message", "Invalid tag format (missing '=')",
        "Failed to parse tag", "No valid tags found",
        "Missing required tag 35 (MsgType)"] : List String)) := by
  unfold FixTokenizer.Parse specErrorOf wirePairs
  by_cases hin : input.isEmpty
  · rw [if_pos hin, if_pos hin]
    exact ⟨rfl, iff_of_false (by decide) (by decide), Or.inr (by decide)⟩
  · rw [if_neg hin, if_neg hin]
    cases hse : segsError (splitSegs d input) with
    | some e =>
      obtain ⟨hok, herr⟩ := runSegs_err_some (splitSegs d input) {} 0 e hse
      have hmem := segsError_mem _ e hse
      have hne : e ≠ "" := by rcases hmem with h | h <;> subst h <;> decide
      have hcond : (!(runSegs (splitSegs d input) ({} : ParsedFixMessage) 0).2.2) = true := by
        rw [hok]; rfl
      rw [if_pos hcond]
      refine ⟨herr, iff_of_false (by simp) hne, Or.inr ?_⟩
      rcases hmem with h | h <;> subst h <;> simp
    | none =>
      obtain ⟨hok, herr, hcnt⟩ := runSegs_err_none (splitSegs d input) {} 0 hse
      have hcond : ¬ ((!(runSegs (splitSegs d input) ({} : ParsedFixMessage) 0).2.2) = true) := by
        rw [hok]; decide
      rw [if_neg hcond, hcnt]
      simp only [Nat.zero_add]
      by_cases hc : nonemptyCount (splitSegs d input) = 0
      · rw [if_pos hc, if_pos hc]
        exact ⟨rfl, iff_of_false (by simp) (by decide), Or.inr (by decide)⟩
      · rw [if_neg hc, if_neg hc, runSegs_msg_type]
        cases hlv : lastValue 35 (pairsOf (splitSegs d input)) with
        | none =>
          exact ⟨rfl, iff_of_false (by simp) (by decide), Or.inr (by decide)⟩
        | some v =>
          by_cases hv : v.isEmpty
          · simp only [hv]
            exact ⟨rfl, iff_of_false (by simp) (by decide), Or.inr (by decide)⟩
          · simp only [hv]
            exact ⟨herr, iff_of_true rfl rfl, Or.inl rfl⟩

/-- C1 (counterexample): on `"35=D|x"` a valid `tag=value` segment was
read (the ordered sequence is non-empty) and the MsgType hot slot is
non-empty, yet `FixTokenizer::Parse` fails — with the structural error
of the malformed second segment — so "succeeds iff at least one
tag=value segment was read and the MsgType slot is non-empty" is false
as stated. -/
theorem tokenizer_success_iff_claim_false :
    (FixTokenizer.Parse "35=D|x".data '|').2 = false ∧
    (FixTokenizer.Parse "35=D|x".data '|').1.all_tags_ordered = [(35, "D".data)] ∧
    (FixTokenizer.Parse "35=D|x".data '|').1.msg_type = some "D".data ∧
    (FixTokenizer.Parse "35=D|x".data '|').1.parse_error =
      "Invalid tag format (missing '=')" := by
  refine ⟨by decide, by decide, by decide, by decide⟩

/-! ## Split lemmas and empty-segment behaviour -/

theorem splitSegs_ne_nil (d : Char) (l : Val) : splitSegs d l ≠ [] := by
  cases l with
  | nil => simp [splitSegs]
  | cons c rest =>
    unfold splitSegs
    by_cases hc : c = d
    · simp [hc]
    · simp only [hc, if_false]
      cases splitSegs d rest <;> simp

theorem splitSegs_append_delim (d : Char) (x y : Val) :
    splitSegs d (x ++ d :: y) = splitSegs d x ++ splitSegs d y := by
  induction x with
  | nil => simp [splitSegs]
  | cons c x ih =>
    by_cases hc : c = d
    · subst hc
      simp [splitSegs, ih]
    · simp only [List.cons_append, splitSegs, hc, if_false, List.append_eq]
      rw [ih]
      cases hx : splitSegs d x with
      | nil => exact absurd hx (splitSegs_ne_nil d x)
      | cons s ss => simp

theorem splitSegs_trailing (d : Char) (x : Val) :
    splitSegs d (x ++ [d]) = splitSegs d x ++ [[]] := by
  have h := splitSegs_append_delim d x []
  simpa [splitSegs] using h

theorem splitSegs_no_delim (d : Char) (l : Val) (h : ∀ c ∈ l, c ≠ d) :
    splitSegs d l = [l] := by
  induction l with
  | nil => rfl
  | cons c rest ih =>
    unfold splitSegs
    have hc : c ≠ d := h c (by simp)
    simp only [hc, if_false]
    rw [ih (fun c2 hc2 => h c2 (by simp [hc2]))]

theorem runSegs_skip_empty (pre post : List Val) (msg : ParsedFixMessage) (cnt : Nat) :
    runSegs (pre ++ [] :: post) msg cnt = runSegs (pre ++ post) msg cnt := by
  induction pre generalizing msg cnt with
  | nil => simp [runSegs]
  | cons s pre ih =>
    simp only [List.cons_append]
    by_cases hs : s.isEmpty
    · simp only [runSegs, hs, if_true]
      exact ih msg cnt
    · cases hfe : findEqPos s with
      | none => simp [runSegs, hs, hfe]
      | some i =>
        cases hpt : FixTokenizer.ParseTag (s.take i) (s.drop (i + 1)) msg with
        | none => simp [runSegs, hs, hfe, hpt]
        | some msg2 =>
          simp only [runSegs, hs, Bool.false_eq_true, if_false, hfe, hpt]
          exact ih msg2 (cnt + 1)

/-- C8: for every input, delimiter and hot tag `t`, the hot slot for
`t` after tokenizing holds the value of the last wire occurrence of `t`
(last write wins in `ParseTag`'s switch), while the ordered tag
sequence equals the full wire-order pair list — so when a hot tag
occurs more than once, the slot has the last occurrence and every
occurrence still appears, in wire order, in the ordered sequence. -/
theorem hot_slot_last_occurrence (input : Val) (d : Char) (t : Nat) (ht : t ∈ hotTagList) :
    getHotSlot ((FixTokenizer.Parse input d).1) t = lastValue t (wirePairs input d) ∧
    ((FixTokenizer.Parse input d).1).all_tags_ordered = wirePairs input d :=
  ⟨parse_hotSlot input d t ht, parse_ordered input d⟩

/-- C8 (witness): on `"35=D|55=A|55=B"` the Symbol slot (hot tag 55)
holds `"B"`, the last occurrence. -/
theorem hot_slot_last_occurrence_witness :
    (getHotSlot (FixTokenizer.Parse "35=D|55=A|55=B".data '|').1 55 =
      lastValue 55 (wirePairs "35=D|55=A|55=B".data '|') ∧
    (FixTokenizer.Parse "35=D|55=A|55=B".data '|').1.all_tags_ordered =
      wirePairs "35=D|55=A|55=B".data '|') ∧
    getHotSlot (FixTokenizer.Parse "35=D|55=A|55=B".data '|').1 55 = some "B".data :=
  ⟨hot_slot_last_occurrence "35=D|55=A|55=B".data '|' 55 (by decide), by decide⟩

/-- C9: the tokenizer accepts tag 0: for any value `v` free of the
delimiter, parsing `"35=D|0=" ++ v` succeeds with no error, the digit
string `"0"` passes the numeric check, and the pair `(0, v)` is both
appended to the ordered sequence and stored in the overflow map like
any non-hot tag — although the data model calls a Tag an integer ≥ 1. -/
theorem tag_zero_accepted (v : Val) (hnd : '|' ∉ v) :
    (FixTokenizer.Parse ("35=D|0=".data ++ v) '|').2 = true ∧
    (FixTokenizer.Parse ("35=D|0=".data ++ v) '|').1.other_tags 0 = some v ∧
    (FixTokenizer.Parse ("35=D|0=".data ++ v) '|').1.all_tags_ordered =
      [(35, "D".data), (0, v)] ∧
    (FixTokenizer.Parse ("35=D|0=".data ++ v) '|').1.parse_error = "" := by
  have hnod : ∀ c ∈ ('0' :: '=' :: v), c ≠ '|' := by
    intro c hc heq
    subst heq
    simp only [List.mem_cons] at hc
    rcases hc with hx | hx | hx
    · exact absurd hx (by decide)
    · exact absurd hx (by decide)
    · exact hnd hx
  have hsplit : splitSegs '|' ("35=D|0=".data ++ v) = ["35=D".data, '0' :: '=' :: v] := by
    rw [show "35=D|0=".data ++ v = "35=D".data ++ '|' :: ('0' :: '=' :: v) from rfl,
      splitSegs_append_delim, splitSegs_no_delim '|' ('0' :: '=' :: v) hnod]
    rfl
  unfold FixTokenizer.Parse
  rw [hsplit]
  exact ⟨rfl, rfl, rfl, rfl⟩

/-- C9 (witness): concrete instance with `v = "abc"`. -/
theorem tag_zero_accepted_witness :
    (FixTokenizer.Parse "35=D|0=abc".data '|').2 = true ∧
    (FixTokenizer.Parse "35=D|0=abc".data '|').1.other_tags 0 = some "abc".data := by
  have h := tag_zero_accepted "abc".data (by decide)
  exact ⟨h.1, h.2.1⟩

/-- C10: empty segments are skipped silently — a leading delimiter, a
trailing delimiter, and a doubled (consecutive) delimiter all leave the
tokenizer's entire result (message state, count-based checks and error)
unchanged: they produce no error, contribute nothing to the ordered
sequence or the maps, and do not count toward the at-least-one-tag
requirement. -/
theorem empty_segments_skipped (d : Char) (input a b : Val) (h : input ≠ []) :
    FixTokenizer.Parse (d :: input) d = FixTokenizer.Parse input d ∧
    FixTokenizer.Parse (input ++ [d]) d = FixTokenizer.Parse input d ∧
    FixTokenizer.Parse (a ++ d :: d :: b) d = FixTokenizer.Parse (a ++ d :: b) d := by
  have hie : input.isEmpty = false := by
    cases input with
    | nil => exact absurd rfl h
    | cons c l => rfl
  refine ⟨?_, ?_, ?_⟩
  · have hr : runSegs ([] :: splitSegs d input) ({} : ParsedFixMessage) 0 =
        runSegs (splitSegs d input) ({} : ParsedFixMessage) 0 :=
      runSegs_skip_empty [] (splitSegs d input) {} 0
    unfold FixTokenizer.Parse
    simp only [List.isEmpty_cons, hie, Bool.false_eq_true, if_false]
    rw [show splitSegs d (d :: input) = [] :: splitSegs d input by simp [splitSegs], hr]
  · have hie2 : (input ++ [d]).isEmpty = false := by
      cases input <;> rfl
    have hr2 := runSegs_skip_empty (splitSegs d input) [] ({} : ParsedFixMessage) 0
    rw [List.append_nil] at hr2
    unfold FixTokenizer.Parse
    simp only [hie2, hie, Bool.false_eq_true, if_false]
    rw [splitSegs_trailing, hr2]
  · have hie3 : (a ++ d :: d :: b).isEmpty = false := by
      cases a <;> rfl
    have hie4 : (a ++ d :: b).isEmpty = false := by
      cases a <;> rfl
    have hsa : splitSegs d (a ++ d :: d :: b) = splitSegs d a ++ [] :: splitSegs d b := by
      rw [splitSegs_append_delim]
      simp [splitSegs]
    have hr3 := runSegs_skip_empty (splitSegs d a) (splitSegs d b) ({} : ParsedFixMessage) 0
    unfold FixTokenizer.Parse
    simp only [hie3, hie4, Bool.false_eq_true, if_false]
    rw [hsa, splitSegs_append_delim, hr3]

/-- C10 (witness): concrete leading, trailing and doubled delimiters. -/
theorem empty_segments_skipped_witness :
    FixTokenizer.Parse "|35=D".data '|' = FixTokenizer.Parse "35=D".data '|' ∧
    FixTokenizer.Parse "35=D|".data '|' = FixTokenizer.Parse "35=D".data '|' ∧
    FixTokenizer.Parse "35=D||49=S".data '|' = FixTokenizer.Parse "35=D|49=S".data '|' := by
  have h := empty_segments_skipped '|' "35=D".data "35=D".data "49=S".data (by decide)
  exact ⟨h.1, h.2.1, h.2.2⟩

/-! ## Type coercion: FIX timestamps (`fix_type_conversions.cpp`)

`ConvertToTimestamp` parses `YYYYMMDD-HH:MM:SS[.sss]` with bounds- and
digit-checked field extraction, validates the component ranges, then
builds a `timestamp_t` via the duckdb library calls `Date::FromDate`,
`Time::FromTime` and `Timestamp::FromDatetime`.  The result is modelled
as the tuple of components (`TsParts`) the code hands to those calls
(the numeric `timestamp_t` is a function of the parts); `none` models
`return false`.  `Date::FromDate` throws unless the triple is a real
calendar date (duckdb `Date::IsValid`: `NORMAL_DAYS` / `LEAP_DAYS`),
modelled by `dateIsValid`; within the ranges already validated by this
function, `Time::FromTime` and `Timestamp::FromDatetime` cannot throw. -/

/-- The component tuple passed to the timestamp constructors. -/
structure TsParts where
  year : Nat
  month : Nat
  day : Nat
  hour : Nat
  minute : Nat
  second : Nat
  micros : Nat
deriving DecidableEq

/-- `parse_2digits` of `ConvertToTimestamp`: bounds check
(`offset + 1 >= len`), digit check, decimal value. -/
def parse2digits (s : Val) (off : Nat) : Option Nat :=
  match s.get? off, s.get? (off + 1) with
  | some a, some b =>
      if isDigitC a && isDigitC b then some ((a.toNat - 48) * 10 + (b.toNat - 48))
      else none
  | _, _ => none

/-- `parse_4digits` of `ConvertToTimestamp`. -/
def parse4digits (s : Val) (off : Nat) : Option Nat :=
  match s.get? off, s.get? (off + 1), s.get? (off + 2), s.get? (off + 3) with
  | some a, some b, some c, some d =>
      if isDigitC a && isDigitC b && isDigitC c && isDigitC d then
        some ((a.toNat - 48) * 1000 + (b.toNat - 48) * 100 +
          (c.toNat - 48) * 10 + (d.toNat - 48))
      else none
  | _, _, _, _ => none

/-- The fractional-seconds loop of `ConvertToTimestamp`: up to three
digits after a `'.'` at position 17, right-padded to milliseconds and
scaled to microseconds; never fails. -/
def parseMillis (s : Val) : Nat :=
  if s.length > 17 ∧ s.get? 17 = some '.' then
    let ds := ((s.drop 18).take 3).takeWhile isDigitC
    let ms := ds.foldl (fun a c => a * 10 + (c.toNat - 48)) 0
    (ms * 10 ^ (3 - ds.length)) * 1000
  else 0

/-- Modelled from the duckdb library: `Date::IsLeapYear`. -/
def isLeapYear (y : Nat) : Bool := (y % 4 = 0 && y % 100 ≠ 0) || y % 400 = 0

/-- Modelled from the duckdb library: `Date::IsValid`'s per-month day
count (`NORMAL_DAYS` / `LEAP_DAYS`). -/
def daysInMonth (y m : Nat) : Nat :=
  match m with
  | 1 => 31
  | 2 => if isLeapYear y then 29 else 28
  | 3 => 31
  | 4 => 30
  | 5 => 31
  | 6 => 30
  | 7 => 31
  | 8 => 31
  | 9 => 30
  | 10 => 31
  | 11 => 30
  | 12 => 31
  | _ => 0

/-- Modelled from the duckdb library: `Date::FromDate` succeeds exactly
on real calendar dates (its year bounds are far wider than the
1900..2100 range already enforced by the caller). -/
def dateIsValid (y m d : Nat) : Prop := 1 ≤ m ∧ m ≤ 12 ∧ 1 ≤ d ∧ d ≤ daysInMonth y m

instance (y m d : Nat) : Decidable (dateIsValid y m d) := by
  unfold dateIsValid
  infer_instance

/-- `ConvertToTimestamp` (fix_type_conversions.cpp): length gate, field
extraction in source order, the documented range checks, separator
checks, fractional seconds, then the library date construction. -/
def ConvertToTimestamp (s : Val) : Option TsParts :=
  if s.length < 17 then none
  else
    match parse4digits s 0 with
    | none => none
    | some year =>
      match parse2digits s 4 with
      | none => none
      | some month =>
        match parse2digits s 6 with
        | none => none
        | some day =>
          if year < 1900 ∨ year > 2100 then none
          else if month < 1 ∨ month > 12 then none
          else if day < 1 ∨ day > 31 then none
          else if s.get? 8 ≠ some '-' then none
          else
            match parse2digits s 9, parse2digits s 12, parse2digits s 15 with
            | some hour, some minute, some second =>
              if hour > 23 then none
              else if minute > 59 then none
              else if second > 59 then none
              else if s.get? 11 ≠ some ':' ∨ s.get? 14 ≠ some ':' then none
              else if dateIsValid year month day then
                some ⟨year, month, day, hour, minute, second, parseMillis s⟩
              else none
            | _, _, _ => none

example : ConvertToTimestamp "20231215-10:30:00".data =
    some ⟨2023, 12, 15, 10, 30, 0, 0⟩ := by decide
example : ConvertToTimestamp "20231215-10:30:0".data = none := by decide
example : ConvertToTimestamp "20231215-10:30:00.1".data =
    some ⟨2023, 12, 15, 10, 30, 0, 100000⟩ := by decide
example : ConvertToTimestamp "20231215-10:30:00.123".data =
    some ⟨2023, 12, 15, 10, 30, 0, 123000⟩ := by decide
example : ConvertToTimestamp "20231315-10:30:00".data = none := by decide
example : ConvertToTimestamp "20230230-10:30:00".data = none := by decide

/-- Canonical decimal digit character (used only to state the spec-side
canonical `YYYYMMDD-HH:MM:SS` formatter). -/
def digitChar (n : Nat) : Char :=
  match n % 10 with
  | 0 => '0'
  | 1 => '1'
  | 2 => '2'
  | 3 => '3'
  | 4 => '4'
  | 5 => '5'
  | 6 => '6'
  | 7 => '7'
  | 8 => '8'
  | _ => '9'

theorem digitChar_isDigit (n : Nat) : isDigitC (digitChar n) = true := by
  unfold digitChar
  split <;> decide

theorem digitChar_toNat (n : Nat) : (digitChar n).toNat - 48 = n % 10 := by
  unfold digitChar
  have hlt : n % 10 < 10 := Nat.mod_lt _ (by decide)
  generalize hg : n % 10 = k at *
  interval_cases k <;> decide

/-- Spec-side canonical 17-byte `YYYYMMDD-HH:MM:SS` rendering of a
component tuple. -/
def mkTimestampStr (y mo dy h mi sec : Nat) : Val :=
  [digitChar (y / 1000), digitChar (y / 100), digitChar (y / 10), digitChar y,
   digitChar (mo / 10), digitChar mo, digitChar (dy / 10), digitChar dy, '-',
   digitChar (h / 10), digitChar h, ':', digitChar (mi / 10), digitChar mi, ':',
   digitChar (sec / 10), digitChar sec]

theorem convertTs_fail_component (s : Val) (hlen : 17 ≤ s.length)
    (hc : (s.get? 4 = some '1' ∧ s.get? 5 = some '3') ∨
          (s.get? 6 = some '3' ∧ s.get? 7 = some '2') ∨
          (s.get? 9 = some '2' ∧ s.get? 10 = some '4') ∨
          (s.get? 12 = some '6' ∧ s.get? 13 = some '0') ∨
          (s.get? 15 = some '6' ∧ s.get? 16 = some '0')) :
    ConvertToTimestamp s = none := by
  have hp2 : ∀ (off : Nat) (a b : Char), s.get? off = some a → s.get? (off + 1) = some b →
      parse2digits s off =
        (if isDigitC a && isDigitC b then
          some ((a.toNat - 48) * 10 + (b.toNat - 48)) else none) := by
    intro off a b ha hb
    unfold parse2digits
    rw [ha, hb]
  unfold ConvertToTimestamp
  rw [if_neg (show ¬ s.length < 17 by omega)]
  cases h4 : parse4digits s 0 with
  | none => rfl
  | some year =>
    simp only []
    cases h5 : parse2digits s 4 with
    | none => rfl
    | some month =>
      simp only []
      cases h6 : parse2digits s 6 with
      | none => rfl
      | some day =>
        simp only []
        by_cases hy : year < 1900 ∨ year > 2100
        · rw [if_pos hy]
        · rw [if_neg hy]
          by_cases hmo : month < 1 ∨ month > 12
          · rw [if_pos hmo]
          · rw [if_neg hmo]
            by_cases hd : day < 1 ∨ day > 31
            · rw [if_pos hd]
            · rw [if_neg hd]
              by_cases hsep : s.get? 8 ≠ some '-'
              · rw [if_pos hsep]
              · rw [if_neg hsep]
                cases h9 : parse2digits s 9 with
                | none => rfl
                | some hour =>
                  cases h12 : parse2digits s 12 with
                  | none => rfl
                  | some minute =>
                    cases h15 : parse2digits s 15 with
                    | none => rfl
                    | some second =>
                      simp only []
                      rcases hc with ⟨ha, hb⟩ | ⟨ha, hb⟩ | ⟨ha, hb⟩ | ⟨ha, hb⟩ | ⟨ha, hb⟩
                      · rw [hp2 4 '1' '3' ha hb] at h5
                        simp at h5
                        exfalso
                        omega
                      · rw [hp2 6 '3' '2' ha hb] at h6
                        simp at h6
                        exfalso
                        omega
                      · rw [hp2 9 '2' '4' ha hb] at h9
                        simp at h9
                        rw [if_pos (show hour > 23 by omega)]
                      · rw [hp2 12 '6' '0' ha hb] at h12
                        simp at h12
                        by_cases hh : hour > 23
                        · rw [if_pos hh]
                        · rw [if_neg hh, if_pos (show minute > 59 by omega)]
                      · rw [hp2 15 '6' '0' ha hb] at h15
                        simp at h15
                        by_cases hh : hour > 23
                        · rw [if_pos hh]
                        · rw [if_neg hh]
                          by_cases hm2 : minute > 59
                          · rw [if_pos hm2]
                          · rw [if_neg hm2, if_pos (show second > 59 by omega)]

theorem convertTs_format_ok (y mo dy h mi sec : Nat) (hy1 : 1900 ≤ y) (hy2 : y ≤ 2100)
    (hm1 : 1 ≤ mo) (hm2 : mo ≤ 12) (hd1 : 1 ≤ dy) (hd2 : dy ≤ daysInMonth y mo)
    (hh : h ≤ 23) (hmi : mi ≤ 59) (hsec : sec ≤ 59) :
    ConvertToTimestamp (mkTimestampStr y mo dy h mi sec) =
      some ⟨y, mo, dy, h, mi, sec, 0⟩ := by
  have hL : (mkTimestampStr y mo dy h mi sec).length = 17 := rfl
  have hmlt : mo < 100 := by omega
  have e4 : parse4digits (mkTimestampStr y mo dy h mi sec) 0 =
      (if isDigitC (digitChar (y / 1000)) && isDigitC (digitChar (y / 100)) &&
          isDigitC (digitChar (y / 10)) && isDigitC (digitChar y) then
        some (((digitChar (y / 1000)).toNat - 48) * 1000 +
          ((digitChar (y / 100)).toNat - 48) * 100 +
          ((digitChar (y / 10)).toNat - 48) * 10 + ((digitChar y).toNat - 48))
      else none) := rfl
  have h4 : parse4digits (mkTimestampStr y mo dy h mi sec) 0 = some y := by
    rw [e4]
    simp [digitChar_isDigit, digitChar_toNat]
    omega
  have e5 : parse2digits (mkTimestampStr y mo dy h mi sec) 4 =
      (if isDigitC (digitChar (mo / 10)) && isDigitC (digitChar mo) then
        some (((digitChar (mo / 10)).toNat - 48) * 10 + ((digitChar mo).toNat - 48))
      else none) := rfl
  have h5 : parse2digits (mkTimestampStr y mo dy h mi sec) 4 = some mo := by
    rw [e5]
    simp [digitChar_isDigit, digitChar_toNat]
    omega
  have e6 : parse2digits (mkTimestampStr y mo dy h mi sec) 6 =
      (if isDigitC (digitChar (dy / 10)) && isDigitC (digitChar dy) then
        some (((digitChar (dy / 10)).toNat - 48) * 10 + ((digitChar dy).toNat - 48))
      else none) := rfl
  have h6 : parse2digits (mkTimestampStr y mo dy h mi sec) 6 = some dy := by
    rw [e6]
    simp [digitChar_isDigit, digitChar_toNat]
    have : dy ≤ 31 := by
      have h31 : daysInMonth y mo ≤ 31 := by
        unfold daysInMonth
        split <;> first | omega | (split <;> omega)
      omega
    omega
  have e9 : parse2digits (mkTimestampStr y mo dy h mi sec) 9 =
      (if isDigitC (digitChar (h / 10)) && isDigitC (digitChar h) then
        some (((digitChar (h / 10)).toNat - 48) * 10 + ((digitChar h).toNat - 48))
      else none) := rfl
  have h9 : parse2digits (mkTimestampStr y mo dy h mi sec) 9 = some h := by
    rw [e9]
    simp [digitChar_isDigit, digitChar_toNat]
    omega
  have e12 : parse2digits (mkTimestampStr y mo dy h mi sec) 12 =
      (if isDigitC (digitChar (mi / 10)) && isDigitC (digitChar mi) then
        some (((digitChar (mi / 10)).toNat - 48) * 10 + ((digitChar mi).toNat - 48))
      else none) := rfl
  have h12 : parse2digits (mkTimestampStr y mo dy h mi sec) 12 = some mi := by
    rw [e12]
    simp [digitChar_isDigit, digitChar_toNat]
    omega
  have e15 : parse2digits (mkTimestampStr y mo dy h mi sec) 15 =
      (if isDigitC (digitChar (sec / 10)) && isDigitC (digitChar sec) then
        some (((digitChar (sec / 10)).toNat - 48) * 10 + ((digitChar sec).toNat - 48))
      else none) := rfl
  have h15 : parse2digits (mkTimestampStr y mo dy h mi sec) 15 = some sec := by
    rw [e15]
    simp [digitChar_isDigit, digitChar_toNat]
    omega
  have hms : parseMillis (mkTimestampStr y mo dy h mi sec) = 0 := by
    unfold parseMillis
    rw [if_neg]
    intro hcon
    rcases hcon with ⟨hgt, _⟩
    rw [hL] at hgt
    omega
  unfold ConvertToTimestamp
  rw [if_neg (show ¬ (mkTimestampStr y mo dy h mi sec).length < 17 by rw [hL]; omega)]
  simp only [h4, h5, h6, h9, h12, h15]
  rw [if_neg (show ¬ (y < 1900 ∨ y > 2100) by omega),
    if_neg (show ¬ (mo < 1 ∨ mo > 12) by omega),
    if_neg (show ¬ (dy < 1 ∨ dy > 31) by
      have h31 : daysInMonth y mo ≤ 31 := by
        unfold daysInMonth
        split <;> first | omega | (split <;> omega)
      omega),
    if_neg (show ¬ ((mkTimestampStr y mo dy h mi sec).get? 8 ≠ some '-') by
      push_neg
      rfl),
    if_neg (show ¬ h > 23 by omega),
    if_neg (show ¬ mi > 59 by omega),
    if_neg (show ¬ sec > 59 by omega),
    if_neg (show ¬ ((mkTimestampStr y mo dy h mi sec).get? 11 ≠ some ':' ∨
        (mkTimestampStr y mo dy h mi sec).get? 14 ≠ some ':') by
      push_neg
      exact ⟨rfl, rfl⟩),
    if_pos (show dateIsValid y mo dy from ⟨hm1, hm2, hd1, hd2⟩), hms]

/-- C5 (amended): `ConvertToTimestamp` enforces the documented
component ranges in the failure direction — for any input of at least
17 bytes whose digits spell month 13, day 32, hour 24, minute 60 or
second 60 at the fixed offsets, coercion fails — and in the success
direction a canonically formatted value whose components lie in the
documented ranges succeeds provided additionally that the day is valid
for the month and year (the library date constructor rejects
non-calendar dates such as February 30, which the documented
`day ≤ 31` range alone would admit). -/
theorem timestamp_range_validation :
    (∀ s : Val, 17 ≤ s.length →
      ((s.get? 4 = some '1' ∧ s.get? 5 = some '3') ∨
       (s.get? 6 = some '3' ∧ s.get? 7 = some '2') ∨
       (s.get? 9 = some '2' ∧ s.get? 10 = some '4') ∨
       (s.get? 12 = some '6' ∧ s.get? 13 = some '0') ∨
       (s.get? 15 = some '6' ∧ s.get? 16 = some '0')) →
      ConvertToTimestamp s = none) ∧
    (∀ y mo dy h mi sec : Nat, 1900 ≤ y → y ≤ 2100 → 1 ≤ mo → mo ≤ 12 →
      1 ≤ dy → dy ≤ daysInMonth y mo → h ≤ 23 → mi ≤ 59 → sec ≤ 59 →
      ConvertToTimestamp (mkTimestampStr y mo dy h mi sec) =
        some ⟨y, mo, dy, h, mi, sec, 0⟩) :=
  ⟨convertTs_fail_component, convertTs_format_ok⟩

/-- C5 (counterexample): `"20230230-10:00:00"` has every component
inside the documented ranges (year 2023, month 2, day 30 ≤ 31, hour 10,
minute 0, second 0) and the separators at the fixed positions, yet
`ConvertToTimestamp` fails, because the library date constructor
rejects February 30 — so "a value whose components lie within the
ranges … succeeds" is false as stated. -/
theorem timestamp_claim_false_feb30 :
    17 ≤ "20230230-10:00:00".data.length ∧
    parse4digits "20230230-10:00:00".data 0 = some 2023 ∧
    parse2digits "20230230-10:00:00".data 4 = some 2 ∧
    parse2digits "20230230-10:00:00".data 6 = some 30 ∧
    "20230230-10:00:00".data.get? 8 = some '-' ∧
    "20230230-10:00:00".data.get? 11 = some ':' ∧
    "20230230-10:00:00".data.get? 14 = some ':' ∧
    parse2digits "20230230-10:00:00".data 9 = some 10 ∧
    parse2digits "20230230-10:00:00".data 12 = some 0 ∧
    parse2digits "20230230-10:00:00".data 15 = some 0 ∧
    ConvertToTimestamp "20230230-10:00:00".data = none := by
  decide

/-- C5 (witness): month 13 fails; a canonical in-range date parses. -/
theorem timestamp_range_validation_witness :
    ConvertToTimestamp "20231315-10:30:00".data = none ∧
    ConvertToTimestamp (mkTimestampStr 2023 12 15 10 30 0) =
      some ⟨2023, 12, 15, 10, 30, 0, 0⟩ :=
  ⟨timestamp_range_validation.1 "20231315-10:30:00".data (by decide)
      (Or.inl ⟨by decide, by decide⟩),
   timestamp_range_validation.2 2023 12 15 10 30 0 (by decide) (by decide) (by decide)
      (by decide) (by decide) (by decide) (by decide) (by decide) (by decide)⟩

/-! ## Scan-driver error accumulation (`ReadFixScan`)

The scan seeds a `conversion_errors` vector with the tokenizer's
structural error, then the projected typed columns append
`Invalid <field>: '<literal>'` on coercion failure, in column order
(MsgSeqNum, SendingTime, Price, OrderQty, CumQty, LeavesQty, LastPx,
LastQty); the `parse_error` column is the `"; "`-join, or null when the
vector is empty.  `set_int64_field`/`set_double_field` call
`std::stoll`/`std::stod` and reject trailing characters;
`set_timestamp_field` is the scan's own lenient lambda (digit-blind
field extraction, no separator or range checks — validation happens
only inside the duckdb date/time constructors). -/

/-- C-locale `isspace`, skipped by `strtol`/`strtod`. -/
def isSpaceC (c : Char) : Bool :=
  c = ' ' || c = '\t' || c = '\n' || c.toNat = 11 || c.toNat = 12 || c = '\r'

/-- Optional leading sign of the C number grammars. -/
def dropSign : Val → Bool × Val
  | '-' :: r => (true, r)
  | '+' :: r => (false, r)
  | r => (false, r)

/-- Decimal value of a digit run. -/
def digitsVal (ds : Val) : Nat := ds.foldl (fun a c => a * 10 + (c.toNat - 48)) 0

/-- Modelled from `std::stoll` as used by `set_int64_field`: skip
C-locale whitespace, optional sign, decimal digits (at least one, else
`invalid_argument`), `out_of_range` beyond int64; the caller's
`pos != str_val.length()` check additionally demands that the digits
reach the end of the span. -/
def stollOk (v : Val) : Bool :=
  let p := dropSign (v.dropWhile isSpaceC)
  let ds := p.2.takeWhile isDigitC
  !ds.isEmpty && (p.2.dropWhile isDigitC).isEmpty &&
    (if p.1 then decide (digitsVal ds ≤ 2 ^ 63) else decide (digitsVal ds ≤ 2 ^ 63 - 1))

/-- Well-formed, fully-consumed exponent part of the `strtod` grammar
(an `e` not followed by digits is not consumed by `strtod`, which then
trips the caller's trailing-characters check). -/
def expOk : Val → Bool
  | [] => true
  | c :: r =>
      if c = 'e' || c = 'E' then
        let p := dropSign r
        !(p.2.takeWhile isDigitC).isEmpty && (p.2.dropWhile isDigitC).isEmpty
      else false

/-- Modelled from `std::stod` (C-locale `strtod` grammar) as used by
`set_double_field`: whitespace, sign, then a decimal mantissa with at
least one digit (digits, digits-point-digits, point-digits or
digits-point) and an optional exponent, or the case-insensitive words
inf/infinity/nan; the caller requires the whole span consumed.
Hexadecimal literals, `nan(...)` payloads and range overflow are not
modelled. -/
def stodOk (v : Val) : Bool :=
  let p := dropSign (v.dropWhile isSpaceC)
  let low := p.2.map Char.toLower
  if low = "inf".data ∨ low = "infinity".data ∨ low = "nan".data then true
  else
    let ds1 := p.2.takeWhile isDigitC
    match p.2.dropWhile isDigitC with
    | '.' :: r3 =>
        (!ds1.isEmpty || !(r3.takeWhile isDigitC).isEmpty) &&
          expOk (r3.dropWhile isDigitC)
    | r2 => !ds1.isEmpty && expOk r2

/-- `(p[0] - '0')` of the scan's digit-blind timestamp lambda (no digit
check; an arbitrary byte contributes its offset from `'0'`). -/
def rawDigit (c : Char) : Int := (c.toNat : Int) - 48

/-- The scan lambda's `parse_2digits` (no bounds check in the source;
the caller guarantees `len >= 17`, which covers every offset used). -/
def rawParse2 (s : Val) (off : Nat) : Int :=
  rawDigit (s.getD off ' ') * 10 + rawDigit (s.getD (off + 1) ' ')

/-- The scan lambda's `parse_4digits`. -/
def rawParse4 (s : Val) (off : Nat) : Int :=
  rawDigit (s.getD off ' ') * 1000 + rawDigit (s.getD (off + 1) ' ') * 100 +
    rawDigit (s.getD (off + 2) ' ') * 10 + rawDigit (s.getD (off + 3) ' ')

/-- Modelled from the duckdb library: `Date::IsLeapYear` over int. -/
def isLeapYearI (y : Int) : Bool := (y % 4 = 0 && y % 100 ≠ 0) || y % 400 = 0

/-- Modelled from the duckdb library: per-month day count over int. -/
def daysInMonthI (y m : Int) : Int :=
  if m = 1 then 31
  else if m = 2 then (if isLeapYearI y then 29 else 28)
  else if m = 3 then 31
  else if m = 4 then 30
  else if m = 5 then 31
  else if m = 6 then 30
  else if m = 7 then 31
  else if m = 8 then 31
  else if m = 9 then 30
  else if m = 10 then 31
  else if m = 11 then 30
  else if m = 12 then 31
  else 0

/-- Modelled from the duckdb library: `Date::IsValid` (month, day and
year-range checks) — `Date::FromDate` throws exactly when this fails. -/
def dateIsValidI (y m d : Int) : Prop :=
  1 ≤ m ∧ m ≤ 12 ∧ 1 ≤ d ∧ d ≤ daysInMonthI y m ∧ -290307 ≤ y ∧ y ≤ 294246

instance (y m d : Int) : Decidable (dateIsValidI y m d) := by
  unfold dateIsValidI
  infer_instance

/-- Modelled from the duckdb library: `Time::IsValid` —
`Time::FromTime` throws exactly when this fails. -/
def timeIsValid (h mi s micros : Int) : Prop :=
  0 ≤ h ∧ h < 24 ∧ 0 ≤ mi ∧ mi < 60 ∧ 0 ≤ s ∧ s < 60 ∧ 0 ≤ micros ∧ micros < 1000000

instance (h mi s micros : Int) : Decidable (timeIsValid h mi s micros) := by
  unfold timeIsValid
  infer_instance

/-- Success of the try-block of `set_timestamp_field` in `ReadFixScan`:
the digit-blind extraction never throws, the fractional-second loop is
the same as `ConvertToTimestamp`'s, and the only throwing calls are the
duckdb date/time constructors (`Timestamp::FromDatetime` cannot
overflow for components accepted by those two). -/
def scanTimestampOk (v : Val) : Bool :=
  decide (dateIsValidI (rawParse4 v 0) (rawParse2 v 4) (rawParse2 v 6)) &&
  decide (timeIsValid (rawParse2 v 9) (rawParse2 v 12) (rawParse2 v 15)
    (parseMillis v : Int))

/-- Errors appended by `set_int64_field` (empty span: null, no error). -/
def int64FieldErrors (slot : Option Val) (field : String) : List String :=
  match slot with
  | none => []
  | some v =>
      if v.isEmpty then []
      else if stollOk v then []
      else ["Invalid " ++ field ++ ": '" ++ String.mk v ++ "'"]

/-- Errors appended by `set_double_field`. -/
def doubleFieldErrors (slot : Option Val) (field : String) : List String :=
  match slot with
  | none => []
  | some v =>
      if v.isEmpty then []
      else if stodOk v then []
      else ["Invalid " ++ field ++ ": '" ++ String.mk v ++ "'"]

/-- Errors appended by `set_timestamp_field` (span shorter than 17
bytes: null, no error). -/
def timestampFieldErrors (slot : Option Val) (field : String) : List String :=
  match slot with
  | none => []
  | some v =>
      if v.length < 17 then []
      else if scanTimestampOk v then []
      else ["Invalid " ++ field ++ ": '" ++ String.mk v ++ "'"]

/-- Which of the eight typed hot columns are in the projection
(`get_output_idx(col) != INVALID_INDEX`). -/
structure ScanProjection where
  msgSeqNum : Bool := true
  sendingTime : Bool := true
  price : Bool := true
  orderQty : Bool := true
  cumQty : Bool := true
  leavesQty : Bool := true
  lastPx : Bool := true
  lastQty : Bool := true

/-- The `conversion_errors` vector after the column loop, in the
source's push order. -/
def conversionErrors (msg : ParsedFixMessage) (proj : ScanProjection) : List String :=
  (if msg.parse_error ≠ "" then [msg.parse_error] else []) ++
  (if proj.msgSeqNum then int64FieldErrors msg.msg_seq_num "MsgSeqNum" else []) ++
  (if proj.sendingTime then timestampFieldErrors msg.sending_time "SendingTime" else []) ++
  (if proj.price then doubleFieldErrors msg.price "Price" else []) ++
  (if proj.orderQty then doubleFieldErrors msg.order_qty "OrderQty" else []) ++
  (if proj.cumQty then doubleFieldErrors msg.cum_qty "CumQty" else []) ++
  (if proj.leavesQty then doubleFieldErrors msg.leaves_qty "LeavesQty" else []) ++
  (if proj.lastPx then doubleFieldErrors msg.last_px "LastPx" else []) ++
  (if proj.lastQty then doubleFieldErrors msg.last_qty "LastQty" else [])

/-- The `"; "` join of the error vector. -/
def joinErrors : List String → String
  | [] => ""
  | [e] => e
  | e :: rest => e ++ "; " ++ joinErrors rest

/-- The `parse_error` column of the row emitted for one line: null iff
the error vector is empty, else the join. -/
def parseErrorColumn (line : Val) (d : Char) (proj : ScanProjection) : Option String :=
  let msg := (FixTokenizer.Parse line d).1
  let errs := conversionErrors msg proj
  if errs.isEmpty then none else some (joinErrors errs)

example : parseErrorColumn "35=D|34=1|52=20231215-10:30:00|44=1.5".data '|' {} = none := by
  decide
example : parseErrorColumn "35=D|34=abc".data '|' {} =
    some "Invalid MsgSeqNum: 'abc'" := by decide
example : parseErrorColumn "35=D|34=abc|44=x".data '|' {} =
    some "Invalid MsgSeqNum: 'abc'; Invalid Price: 'x'" := by decide
example : parseErrorColumn "49=S|56=T|11=A".data '|' {} =
    some "Missing required tag 35 (MsgType)" := by decide
example : parseErrorColumn "35=D|34=".data '|' {} = none := by decide

theorem parse_ok_iff_error_empty (input : Val) (d : Char) :
    (FixTokenizer.Parse input d).2 = true ↔
      ((FixTokenizer.Parse input d).1).parse_error = "" := by
  unfold FixTokenizer.Parse
  by_cases hin : input.isEmpty
  · rw [if_pos hin]
    exact iff_of_false (show ¬ (false = true) by decide)
      (show ¬ ("Empty message" = "") by decide)
  · rw [if_neg hin]
    cases hse : segsError (splitSegs d input) with
    | some e =>
      obtain ⟨hok, herr⟩ := runSegs_err_some (splitSegs d input) {} 0 e hse
      have hne : e ≠ "" := by
        rcases segsError_mem _ e hse with h | h <;> subst h <;> decide
      have hcond : (!(runSegs (splitSegs d input) ({} : ParsedFixMessage) 0).2.2) = true := by
        rw [hok]; rfl
      rw [if_pos hcond]
      exact iff_of_false (show ¬ (false = true) by decide) (by rw [herr]; exact hne)
    | none =>
      obtain ⟨hok, herr, hcnt⟩ := runSegs_err_none (splitSegs d input) {} 0 hse
      have hcond : ¬ ((!(runSegs (splitSegs d input) ({} : ParsedFixMessage) 0).2.2) = true) := by
        rw [hok]; decide
      rw [if_neg hcond, hcnt]
      simp only [Nat.zero_add]
      by_cases hc : nonemptyCount (splitSegs d input) = 0
      · rw [if_pos hc]
        exact iff_of_false (show ¬ (false = true) by decide)
          (show ¬ ("No valid tags found" = "") by decide)
      · rw [if_neg hc, runSegs_msg_type]
        cases hlv : lastValue 35 (pairsOf (splitSegs d input)) with
        | none =>
          exact iff_of_false (show ¬ (false = true) by decide)
            (show ¬ ("Missing required tag 35 (MsgType)" = "") by decide)
        | some v =>
          by_cases hv : v.isEmpty
          · simp only [hv]
            exact iff_of_false (show ¬ (false = true) by decide)
              (show ¬ ("Missing required tag 35 (MsgType)" = "") by decide)
          · simp only [hv]
            exact iff_of_true rfl herr

/-- A non-empty MsgSeqNum-style span that `std::stoll` rejects (or does
not fully consume). -/
def int64CoercionFails (slot : Option Val) : Prop :=
  ∃ v, slot = some v ∧ v.isEmpty = false ∧ stollOk v = false

/-- A non-empty double-typed span that `std::stod` rejects. -/
def doubleCoercionFails (slot : Option Val) : Prop :=
  ∃ v, slot = some v ∧ v.isEmpty = false ∧ stodOk v = false

/-- A SendingTime span of at least 17 bytes whose date/time
construction throws. -/
def timestampCoercionFails (slot : Option Val) : Prop :=
  ∃ v, slot = some v ∧ 17 ≤ v.length ∧ scanTimestampOk v = false

theorem bnot_eq_true {b : Bool} (h : ¬ b = true) : b = false := by
  cases b
  · rfl
  · exact absurd rfl h

theorem int64FieldErrors_nil (slot : Option Val) (field : String) :
    int64FieldErrors slot field = [] ↔ ¬ int64CoercionFails slot := by
  unfold int64FieldErrors int64CoercionFails
  cases slot with
  | none => simp
  | some v =>
    simp only []
    by_cases hv : v.isEmpty
    · rw [if_pos hv]
      refine iff_of_true rfl ?_
      rintro ⟨v2, hvv, hne, _⟩
      cases Option.some.inj hvv
      rw [hv] at hne
      exact Bool.noConfusion hne
    · rw [if_neg hv]
      by_cases hok : stollOk v
      · rw [if_pos hok]
        refine iff_of_true rfl ?_
        rintro ⟨v2, hvv, _, hnok⟩
        cases Option.some.inj hvv
        rw [hok] at hnok
        exact Bool.noConfusion hnok
      · rw [if_neg hok]
        refine iff_of_false (by simp) ?_
        intro hcon
        exact hcon ⟨v, rfl, bnot_eq_true hv, bnot_eq_true hok⟩

theorem doubleFieldErrors_nil (slot : Option Val) (field : String) :
    doubleFieldErrors slot field = [] ↔ ¬ doubleCoercionFails slot := by
  unfold doubleFieldErrors doubleCoercionFails
  cases slot with
  | none => simp
  | some v =>
    simp only []
    by_cases hv : v.isEmpty
    · rw [if_pos hv]
      refine iff_of_true rfl ?_
      rintro ⟨v2, hvv, hne, _⟩
      cases Option.some.inj hvv
      rw [hv] at hne
      exact Bool.noConfusion hne
    · rw [if_neg hv]
      by_cases hok : stodOk v
      · rw [if_pos hok]
        refine iff_of_true rfl ?_
        rintro ⟨v2, hvv, _, hnok⟩
        cases Option.some.inj hvv
        rw [hok] at hnok
        exact Bool.noConfusion hnok
      · rw [if_neg hok]
        refine iff_of_false (by simp) ?_
        intro hcon
        exact hcon ⟨v, rfl, bnot_eq_true hv, bnot_eq_true hok⟩

theorem timestampFieldErrors_nil (slot : Option Val) (field : String) :
    timestampFieldErrors slot field = [] ↔ ¬ timestampCoercionFails slot := by
  unfold timestampFieldErrors timestampCoercionFails
  cases slot with
  | none => simp
  | some v =>
    simp only []
    by_cases hl : v.length < 17
    · rw [if_pos hl]
      refine iff_of_true rfl ?_
      rintro ⟨v2, hvv, h17, _⟩
      cases Option.some.inj hvv
      omega
    · rw [if_neg hl]
      by_cases hok : scanTimestampOk v
      · rw [if_pos hok]
        refine iff_of_true rfl ?_
        rintro ⟨v2, hvv, _, hnok⟩
        cases Option.some.inj hvv
        rw [hok] at hnok
        exact Bool.noConfusion hnok
      · rw [if_neg hok]
        refine iff_of_false (by simp) ?_
        intro hcon
        exact hcon ⟨v, rfl, by omega, bnot_eq_true hok⟩

/-- C2 (amended): the `parse_error` column is null iff the tokenizer
succeeded (no structural error — which entails the mandatory MsgType)
AND no projected typed coercion (MsgSeqNum, SendingTime, Price,
OrderQty, CumQty, LeavesQty, LastPx, LastQty) failed.  Mere presence of
MsgType is not enough: a structural error elsewhere also populates the
column. -/
theorem parse_error_null_iff_characterization (line : Val) (d : Char)
    (proj : ScanProjection) :
    parseErrorColumn line d proj = none ↔
      ((FixTokenizer.Parse line d).2 = true ∧
       ¬ (proj.msgSeqNum = true ∧
          int64CoercionFails ((FixTokenizer.Parse line d).1).msg_seq_num) ∧
       ¬ (proj.sendingTime = true ∧
          timestampCoercionFails ((FixTokenizer.Parse line d).1).sending_time) ∧
       ¬ (proj.price = true ∧
          doubleCoercionFails ((FixTokenizer.Parse line d).1).price) ∧
       ¬ (proj.orderQty = true ∧
          doubleCoercionFails ((FixTokenizer.Parse line d).1).order_qty) ∧
       ¬ (proj.cumQty = true ∧
          doubleCoercionFails ((FixTokenizer.Parse line d).1).cum_qty) ∧
       ¬ (proj.leavesQty = true ∧
          doubleCoercionFails ((FixTokenizer.Parse line d).1).leaves_qty) ∧
       ¬ (proj.lastPx = true ∧
          doubleCoercionFails ((FixTokenizer.Parse line d).1).last_px) ∧
       ¬ (proj.lastQty = true ∧
          doubleCoercionFails ((FixTokenizer.Parse line d).1).last_qty)) := by
  unfold parseErrorColumn conversionErrors
  have hjoin : ∀ errs : List String,
      ((if errs.isEmpty then (none : Option String) else some (joinErrors errs)) = none ↔
        errs = []) := by
    intro errs
    cases errs <;> simp
  rw [hjoin]
  simp only [List.append_eq_nil, and_assoc]
  have hproj : ∀ (b : Bool) (errs : List String) (P : Prop),
      (errs = [] ↔ ¬ P) → ((if b = true then errs else []) = [] ↔ ¬ (b = true ∧ P)) := by
    intro b errs P hiff
    cases b
    · simp
    · simpa using hiff
  have hpe : (if ((FixTokenizer.Parse line d).1).parse_error ≠ "" then
      [((FixTokenizer.Parse line d).1).parse_error] else []) = [] ↔
      (FixTokenizer.Parse line d).2 = true := by
    by_cases he : ((FixTokenizer.Parse line d).1).parse_error = ""
    · rw [if_neg (by simpa using he)]
      exact iff_of_true rfl ((parse_ok_iff_error_empty line d).mpr he)
    · rw [if_pos he]
      refine iff_of_false (by simp) ?_
      intro hok
      exact he ((parse_ok_iff_error_empty line d).mp hok)
  exact and_congr hpe (and_congr
    (hproj _ _ _ (int64FieldErrors_nil _ _)) (and_congr
    (hproj _ _ _ (timestampFieldErrors_nil _ _)) (and_congr
    (hproj _ _ _ (doubleFieldErrors_nil _ _)) (and_congr
    (hproj _ _ _ (doubleFieldErrors_nil _ _)) (and_congr
    (hproj _ _ _ (doubleFieldErrors_nil _ _)) (and_congr
    (hproj _ _ _ (doubleFieldErrors_nil _ _)) (and_congr
    (hproj _ _ _ (doubleFieldErrors_nil _ _))
    (hproj _ _ _ (doubleFieldErrors_nil _ _)))))))))

/-- C2 (counterexample): on `"35=D|x"` the message has the mandatory
MsgType (the hot slot holds `"D"`), every typed slot is empty so no
projected typed coercion failed, yet the `parse_error` column is
non-null — it carries the structural error of the malformed second
segment — so "null iff MsgType present and coercions succeeded" is
false as stated. -/
theorem parse_error_null_iff_claim_false :
    (FixTokenizer.Parse "35=D|x".data '|').1.msg_type = some "D".data ∧
    (FixTokenizer.Parse "35=D|x".data '|').1.msg_seq_num = none ∧
    (FixTokenizer.Parse "35=D|x".data '|').1.sending_time = none ∧
    (FixTokenizer.Parse "35=D|x".data '|').1.price = none ∧
    (FixTokenizer.Parse "35=D|x".data '|').1.order_qty = none ∧
    (FixTokenizer.Parse "35=D|x".data '|').1.cum_qty = none ∧
    (FixTokenizer.Parse "35=D|x".data '|').1.leaves_qty = none ∧
    (FixTokenizer.Parse "35=D|x".data '|').1.last_px = none ∧
    (FixTokenizer.Parse "35=D|x".data '|').1.last_qty = none ∧
    parseErrorColumn "35=D|x".data '|' {} =
      some "Invalid tag format (missing '=')" := by
  decide

/-! ## Dictionary model and group parser (`fix_dictionary.hpp`,
`fix_group_parser.cpp`)

Only the parts the group parser and the bind step consult are
modelled: `FixFieldDef` keeps the field name (type tag and enums are
never read on these paths), `FixMessageDef` keeps the group map
(required/optional lists are recorded for introspection only), and the
`std::unordered_map`s become lookup functions, with the message's group
map kept as an association list because `ParseGroups` iterates it (its
keys are distinct in any map, which theorems state as a `Nodup`
hypothesis).  `FixGroupDef.subgroups` is omitted: the parser never
expands nested groups in this revision. -/

structure FixGroupDef where
  count_tag : Nat := 0
  field_tags : List Nat := []
deriving DecidableEq

structure FixMessageDef where
  name : String := ""
  msg_type : String := ""
  groups : List (Nat × FixGroupDef) := []
deriving DecidableEq

structure FixFieldDef where
  tag : Nat := 0
  name : String := ""
deriving DecidableEq

structure FixDictionary where
  fields : Nat → Option FixFieldDef := fun _ => none
  messages : String → Option FixMessageDef := fun _ => none
  name_to_tag : String → Option Nat := fun _ => none

/-- Modelled from `std::stoi` as used by `GetGroupCount` and the scan's
group code: whitespace, sign, decimal digits (at least one, else
`invalid_argument`), `out_of_range` beyond int; trailing characters are
ignored (`stoi` reports the consumed prefix only). -/
def stoiOpt (v : Val) : Option Int :=
  let p := dropSign (v.dropWhile isSpaceC)
  let ds := p.2.takeWhile isDigitC
  if ds.isEmpty then none
  else
    let n : Int := (digitsVal ds : Int)
    let val := if p.1 then -n else n
    if val < -2147483648 ∨ val > 2147483647 then none else some val

/-- `FixGroupParser::IsGroupField`: linear scan of the member set. -/
def FixGroupParser.IsGroupField (tag : Nat) (group_field_tags : List Nat) : Bool :=
  group_field_tags.any (fun gf => tag == gf)

/-- `FixGroupParser::GetGroupCount`: read the count tag from the
overflow map, `stoi` it, and zero out absent / unparseable / non-positive
/ over-100 counts. -/
def FixGroupParser.GetGroupCount (other_tags : Nat → Option Val) (count_tag : Nat) : Int :=
  match other_tags count_tag with
  | none => 0
  | some v =>
      match stoiOpt v with
      | none => 0
      | some c => if c ≤ 0 ∨ c > 100 then 0 else c

/-- `FixGroupParser::FindCountTagPosition`: index of the first
occurrence, or the length when absent. -/
def FixGroupParser.FindCountTagPosition : List (Nat × Val) → Nat → Nat
  | [], _ => 0
  | (t, _) :: rest, ct =>
      if t = ct then 0 else FixGroupParser.FindCountTagPosition rest ct + 1

/-- The inner instance loop of `ParseGroupInstances`: consume
consecutive member tags, also stopping after an element when the next
tag is the delimiter tag (`group_field_tags[0]`); returns the instance
and the remaining sequence. -/
def collectInstance (mem : List Nat) : List (Nat × Val) → List (Nat × Val) × List (Nat × Val)
  | [] => ([], [])
  | (t, v) :: rest =>
      if !FixGroupParser.IsGroupField t mem then ([], (t, v) :: rest)
      else
        match rest with
        | (t2, _) :: _ =>
            if mem.head? = some t2 then ([(t, v)], rest)
            else
              let p := collectInstance mem rest
              ((t, v) :: p.1, p.2)
        | [] => ([(t, v)], [])

/-- The outer loop of `ParseGroupInstances`: up to `group_count`
instances, empty instances are not pushed (and do not advance the
position, so every later iteration is empty too). -/
def parseInstancesAux : Nat → List (Nat × Val) → List Nat → List (List (Nat × Val))
  | 0, _, _ => []
  | _ + 1, [], _ => []
  | n + 1, (t, v) :: l, mem =>
      let p := collectInstance mem ((t, v) :: l)
      if p.1.isEmpty then parseInstancesAux n p.2 mem
      else p.1 :: parseInstancesAux n p.2 mem

/-- The per-group body of `FixGroupParser::ParseGroups`: count check,
member-set check, count-tag position check, instance collection, and
the skip when no non-empty instance was produced. -/
def buildGroupEntries (parsed : ParsedFixMessage) :
    List (Nat × FixGroupDef) → List (Nat × List (List (Nat × Val)))
  | [] => []
  | (count_tag, gdef) :: rest =>
      let tailE := buildGroupEntries parsed rest
      let group_count := FixGroupParser.GetGroupCount parsed.other_tags count_tag
      if group_count = 0 then tailE
      else if gdef.field_tags.isEmpty then tailE
      else
        let pos := FixGroupParser.FindCountTagPosition parsed.all_tags_ordered count_tag
        if parsed.all_tags_ordered.length ≤ pos then tailE
        else
          let instances := parseInstancesAux group_count.toNat
            (parsed.all_tags_ordered.drop (pos + 1)) gdef.field_tags
          if instances.isEmpty then tailE
          else (count_tag, instances) :: tailE

/-- `FixGroupParser::ParseGroups`: the needs-groups flag, the
prerequisite checks, the message-type lookup, the group loop, and NULL
when no group produced an entry. -/
def FixGroupParser.ParseGroups (parsed : ParsedFixMessage) (dict : FixDictionary)
    (needs_groups : Bool) : Option (List (Nat × List (List (Nat × Val)))) :=
  if !needs_groups then none
  else
    match parsed.msg_type with
    | none => none
    | some mv =>
        if parsed.all_tags_ordered.isEmpty ∨ mv.isEmpty then none
        else
          match dict.messages (String.mk mv) with
          | none => none
          | some mdef =>
              let entries := buildGroupEntries parsed mdef.groups
              if entries.isEmpty then none else some entries

/-- First-match association lookup (`unordered_map::find` on the built
entry list / group map). -/
def lookupFirst {α : Type} : List (Nat × α) → Nat → Option α
  | [], _ => none
  | (a, x) :: rest, k => if a = k then some x else lookupFirst rest k

/-- `groups[k]`: the entry for count tag `k` in the emitted structure
(`none` both when the whole column is NULL and when `k` has no entry). -/
def groupsLookup (res : Option (List (Nat × List (List (Nat × Val))))) (k : Nat) :
    Option (List (List (Nat × Val))) :=
  match res with
  | none => none
  | some l => lookupFirst l k

instance : DecidableEq (List (Nat × List (List (Nat × Val)))) :=
  fun a b => List.hasDecEq a b

def demoGroupDef : FixGroupDef := { count_tag := 453, field_tags := [448, 447, 452] }

def demoMsgDef : FixMessageDef :=
  { name := "ExecutionReport", msg_type := "8", groups := [(453, demoGroupDef)] }

def demoDict : FixDictionary :=
  { messages := fun s => if s = "8" then some demoMsgDef else none }

example : groupsLookup (FixGroupParser.ParseGroups
    (FixTokenizer.Parse "35=8|55=AAPL|453=3|448=P1|447=D|452=1|448=P2|447=D|452=3|448=P3|447=D|452=11|10=000".data '|').1
    demoDict true) 453 =
    some [[(448, "P1".data), (447, "D".data), (452, "1".data)],
          [(448, "P2".data), (447, "D".data), (452, "3".data)],
          [(448, "P3".data), (447, "D".data), (452, "11".data)]] := by decide
example : FixGroupParser.ParseGroups
    (FixTokenizer.Parse "35=8|453=2|99=x".data '|').1 demoDict true = none := by decide
example : FixGroupParser.ParseGroups
    (FixTokenizer.Parse "35=8|453=0|448=P1".data '|').1 demoDict true = none := by decide
example : FixGroupParser.ParseGroups
    (FixTokenizer.Parse "35=8|453=101|448=P1".data '|').1 demoDict true = none := by decide
example : FixGroupParser.ParseGroups
    (FixTokenizer.Parse "35=8|453=abc|448=P1".data '|').1 demoDict true = none := by decide
example : groupsLookup (FixGroupParser.ParseGroups
    (FixTokenizer.Parse "35=8|453=2|448=P1|99=x".data '|').1 demoDict true) 453 =
    some [[(448, "P1".data)]] := by decide

theorem collectInstance_not_member (mem : List Nat) (t : Nat) (v : Val)
    (rest : List (Nat × Val)) (h : FixGroupParser.IsGroupField t mem = false) :
    collectInstance mem ((t, v) :: rest) = ([], (t, v) :: rest) := by
  simp [collectInstance, h]

theorem collectInstance_member_ne_nil (mem : List Nat) (t : Nat) (v : Val)
    (rest : List (Nat × Val)) (h : FixGroupParser.IsGroupField t mem = true) :
    (collectInstance mem ((t, v) :: rest)).1 ≠ [] := by
  unfold collectInstance
  rw [h]
  simp only [Bool.not_true, Bool.false_eq_true, if_false]
  cases rest with
  | nil => simp
  | cons hd tl =>
    obtain ⟨t2, v2⟩ := hd
    by_cases hd2 : mem.head? = some t2
    · simp [hd2]
    · simp [hd2]

theorem parseInstancesAux_nil_of_not_member (n : Nat) (mem : List Nat) (t : Nat) (v : Val)
    (l : List (Nat × Val)) (h : FixGroupParser.IsGroupField t mem = false) :
    parseInstancesAux n ((t, v) :: l) mem = [] := by
  induction n with
  | zero => rfl
  | succ n ih =>
    unfold parseInstancesAux
    rw [collectInstance_not_member mem t v l h]
    simpa using ih

theorem parseInstancesAux_cons_member_ne_nil (n : Nat) (mem : List Nat) (t : Nat) (v : Val)
    (l : List (Nat × Val)) (h : FixGroupParser.IsGroupField t mem = true) :
    parseInstancesAux (n + 1) ((t, v) :: l) mem ≠ [] := by
  have hne := collectInstance_member_ne_nil mem t v l h
  unfold parseInstancesAux
  simp only []
  rw [if_neg (by simpa using hne)]
  simp

theorem parseInstancesAux_ne_nil_iff (n : Nat) (l : List (Nat × Val)) (mem : List Nat) :
    parseInstancesAux (n + 1) l mem ≠ [] ↔
      ∃ t v rest, l = (t, v) :: rest ∧ FixGroupParser.IsGroupField t mem = true := by
  cases l with
  | nil =>
    simp [parseInstancesAux]
  | cons hd tl =>
    obtain ⟨t, v⟩ := hd
    by_cases h : FixGroupParser.IsGroupField t mem
    · refine iff_of_true (parseInstancesAux_cons_member_ne_nil n mem t v tl h) ?_
      exact ⟨t, v, tl, rfl, h⟩
    · rw [parseInstancesAux_nil_of_not_member (n + 1) mem t v tl (bnot_eq_true h)]
      refine iff_of_false (by simp) ?_
      rintro ⟨t2, v2, rest2, heq, hmem⟩
      rw [List.cons.injEq] at heq
      obtain ⟨hpair, -⟩ := heq
      rw [Prod.mk.injEq] at hpair
      exact h (hpair.1 ▸ hmem)

theorem parseInstancesAux_length_le (n : Nat) (l : List (Nat × Val)) (mem : List Nat) :
    (parseInstancesAux n l mem).length ≤ n := by
  induction n generalizing l with
  | zero => simp [parseInstancesAux]
  | succ n ih =>
    cases l with
    | nil => simp [parseInstancesAux]
    | cons hd tl =>
      obtain ⟨t, v⟩ := hd
      unfold parseInstancesAux
      simp only []
      by_cases hp : (collectInstance mem ((t, v) :: tl)).1.isEmpty
      · rw [if_pos hp]
        exact le_trans (ih _) (Nat.le_succ n)
      · rw [if_neg hp]
        simpa using Nat.succ_le_succ (ih _)

theorem buildGroupEntries_lookup_none (parsed : ParsedFixMessage)
    (groups : List (Nat × FixGroupDef)) (k : Nat) (hk : k ∉ groups.map Prod.fst) :
    lookupFirst (buildGroupEntries parsed groups) k = none := by
  induction groups with
  | nil => rfl
  | cons hd rest ih =>
    obtain ⟨ct, gdef⟩ := hd
    simp only [List.map_cons, List.mem_cons] at hk
    push_neg at hk
    have hkr := ih hk.2
    have hne : ¬ ct = k := fun h => hk.1 h.symm
    simp only [buildGroupEntries]
    split_ifs with h1 h2 h3 h4
    · exact hkr
    · exact hkr
    · exact hkr
    · exact hkr
    · simp only [lookupFirst, if_neg hne]
      exact hkr

theorem lookupFirst_cons_self {α : Type} (a : Nat) (x : α) (rest : List (Nat × α)) :
    lookupFirst ((a, x) :: rest) a = some x := by
  simp [lookupFirst]

theorem lookupFirst_cons_ne {α : Type} (a k : Nat) (x : α) (rest : List (Nat × α))
    (h : ¬ a = k) : lookupFirst ((a, x) :: rest) k = lookupFirst rest k := by
  simp [lookupFirst, h]

theorem buildGroupEntries_lookup_char (parsed : ParsedFixMessage)
    (groups : List (Nat × FixGroupDef)) (hnd : (groups.map Prod.fst).Nodup)
    (k : Nat) (ins : List (List (Nat × Val))) :
    lookupFirst (buildGroupEntries parsed groups) k = some ins ↔
      (∃ gdef, lookupFirst groups k = some gdef ∧
        FixGroupParser.GetGroupCount parsed.other_tags k ≠ 0 ∧
        gdef.field_tags ≠ [] ∧
        FixGroupParser.FindCountTagPosition parsed.all_tags_ordered k <
          parsed.all_tags_ordered.length ∧
        parseInstancesAux (FixGroupParser.GetGroupCount parsed.other_tags k).toNat
          (parsed.all_tags_ordered.drop
            (FixGroupParser.FindCountTagPosition parsed.all_tags_ordered k + 1))
          gdef.field_tags = ins ∧ ins ≠ []) := by
  induction groups with
  | nil => simp [buildGroupEntries, lookupFirst]
  | cons hd rest ih =>
    obtain ⟨ct, gdef0⟩ := hd
    have hnd2 : (rest.map Prod.fst).Nodup := (List.nodup_cons.mp (by simpa using hnd)).2
    have hctnot : ct ∉ rest.map Prod.fst := (List.nodup_cons.mp (by simpa using hnd)).1
    by_cases hkc : ct = k
    · subst hkc
      have hlk : lookupFirst ((ct, gdef0) :: rest) ct = some gdef0 :=
        lookupFirst_cons_self ct gdef0 rest
      simp only [buildGroupEntries]
      by_cases h1 : FixGroupParser.GetGroupCount parsed.other_tags ct = 0
      · rw [if_pos h1, buildGroupEntries_lookup_none parsed rest ct hctnot]
        refine iff_of_false (by simp) ?_
        rintro ⟨g, -, hcnt, -⟩
        exact hcnt h1
      · rw [if_neg h1]
        by_cases h2 : gdef0.field_tags.isEmpty
        · rw [if_pos h2, buildGroupEntries_lookup_none parsed rest ct hctnot]
          refine iff_of_false (by simp) ?_
          rintro ⟨g, hg, -, hft, -⟩
          have hgg : g = gdef0 := Option.some.inj ((hlk ▸ hg : (some gdef0 : Option FixGroupDef) = some g)).symm
          subst hgg
          exact hft (List.isEmpty_iff.mp h2)
        · rw [if_neg h2]
          by_cases h3 : parsed.all_tags_ordered.length ≤
              FixGroupParser.FindCountTagPosition parsed.all_tags_ordered ct
          · rw [if_pos h3, buildGroupEntries_lookup_none parsed rest ct hctnot]
            refine iff_of_false (by simp) ?_
            rintro ⟨g, -, -, -, hpos, -⟩
            omega
          · rw [if_neg h3]
            by_cases h4 : (parseInstancesAux
                (FixGroupParser.GetGroupCount parsed.other_tags ct).toNat
                (parsed.all_tags_ordered.drop
                  (FixGroupParser.FindCountTagPosition parsed.all_tags_ordered ct + 1))
                gdef0.field_tags).isEmpty
            · rw [if_pos h4, buildGroupEntries_lookup_none parsed rest ct hctnot]
              refine iff_of_false (by simp) ?_
              rintro ⟨g, hg, -, -, -, hins, hne⟩
              have hgg : g = gdef0 := Option.some.inj ((hlk ▸ hg : (some gdef0 : Option FixGroupDef) = some g)).symm
              subst hgg
              rw [List.isEmpty_iff.mp h4] at hins
              exact hne hins.symm
            · rw [if_neg h4, lookupFirst_cons_self]
              constructor
              · intro hsome
                refine ⟨gdef0, hlk, h1, ?_, by omega, Option.some.inj hsome, ?_⟩
                · intro hx
                  rw [hx] at h2
                  exact h2 rfl
                · intro hx
                  rw [← Option.some.inj hsome] at hx
                  exact h4 (by rw [hx]; rfl)
              · rintro ⟨g, hg, -, -, -, hins, -⟩
                have hgg : g = gdef0 := Option.some.inj ((hlk ▸ hg : (some gdef0 : Option FixGroupDef) = some g)).symm
                subst hgg
                rw [hins]
    · rw [lookupFirst_cons_ne ct k gdef0 rest hkc]
      simp only [buildGroupEntries]
      split_ifs with h1 h2 h3 h4
      · exact ih hnd2
      · exact ih hnd2
      · exact ih hnd2
      · exact ih hnd2
      · rw [lookupFirst_cons_ne ct k _ _ hkc]
        exact ih hnd2

theorem getGroupCount_ne_zero_exists (ot : Nat → Option Val) (ct : Nat)
    (h : FixGroupParser.GetGroupCount ot ct ≠ 0) :
    ∃ v, ot ct = some v ∧ stoiOpt v = some (FixGroupParser.GetGroupCount ot ct) ∧
      0 < FixGroupParser.GetGroupCount ot ct ∧
      FixGroupParser.GetGroupCount ot ct ≤ 100 := by
  unfold FixGroupParser.GetGroupCount at h ⊢
  cases hv : ot ct with
  | none => rw [hv] at h; exact absurd rfl h
  | some v =>
      rw [hv] at h
      simp only [] at h ⊢
      cases hs : stoiOpt v with
      | none => rw [hs] at h; exact absurd rfl h
      | some c =>
          rw [hs] at h
          simp only [] at h ⊢
          by_cases hc : c ≤ 0 ∨ c > 100
          · rw [if_pos hc] at h; exact absurd rfl h
          · rw [if_neg hc] at h ⊢
            push_neg at hc
            exact ⟨v, rfl, hs, by omega, by omega⟩

theorem buildGroupEntries_lookup_forward (parsed : ParsedFixMessage)
    (groups : List (Nat × FixGroupDef)) (k : Nat) (ins : List (List (Nat × Val)))
    (h : lookupFirst (buildGroupEntries parsed groups) k = some ins) :
    ins ≠ [] ∧ FixGroupParser.GetGroupCount parsed.other_tags k ≠ 0 ∧
      (ins.length : Int) ≤ FixGroupParser.GetGroupCount parsed.other_tags k := by
  induction groups with
  | nil => simp [buildGroupEntries, lookupFirst] at h
  | cons hd rest ih =>
    obtain ⟨ct, gdef⟩ := hd
    simp only [buildGroupEntries] at h
    split_ifs at h with h1 h2 h3 h4
    · exact ih h
    · exact ih h
    · exact ih h
    · exact ih h
    · by_cases hkc : ct = k
      · subst hkc
        rw [lookupFirst_cons_self] at h
        have hins := Option.some.inj h
        refine ⟨?_, h1, ?_⟩
        · intro hx
          rw [← hins] at hx
          exact h4 (by rw [hx]; rfl)
        · obtain ⟨v, -, -, hpos, -⟩ := getGroupCount_ne_zero_exists parsed.other_tags ct h1
          rw [← hins]
          have hle := parseInstancesAux_length_le
            (FixGroupParser.GetGroupCount parsed.other_tags ct).toNat
            (parsed.all_tags_ordered.drop
              (FixGroupParser.FindCountTagPosition parsed.all_tags_ordered ct + 1))
            gdef.field_tags
          omega
      · rw [lookupFirst_cons_ne _ _ _ _ hkc] at h
        exact ih h

theorem parseGroups_some_shape (parsed : ParsedFixMessage) (dict : FixDictionary)
    (ng : Bool) (l : List (Nat × List (List (Nat × Val))))
    (hres : FixGroupParser.ParseGroups parsed dict ng = some l) :
    ∃ mv mdef, parsed.msg_type = some mv ∧ dict.messages (String.mk mv) = some mdef ∧
      buildGroupEntries parsed mdef.groups = l := by
  unfold FixGroupParser.ParseGroups at hres
  split at hres
  · exact Option.noConfusion hres
  · split at hres
    · exact Option.noConfusion hres
    · rename_i mv hmt
      split at hres
      · exact Option.noConfusion hres
      · split at hres
        · exact Option.noConfusion hres
        · rename_i mdef hmd
          simp only [] at hres
          split at hres
          · exact Option.noConfusion hres
          · exact ⟨mv, mdef, hmt, hmd, Option.some.inj hres⟩

/-- C4: whenever count tag `k` has an entry in the groups structure, the
instance list is non-empty, the declared count (the `stoi` value of the
raw tag-`k` value) is a positive integer at most 100, and the number of
instances emitted is at most that declared count — so the length lies in
`1 .. min(count, 100)`, and an absent, unparseable, non-positive or
over-100 declared count never yields an entry. -/
theorem groups_length_bounds (parsed : ParsedFixMessage) (dict : FixDictionary)
    (ng : Bool) (k : Nat) (ins : List (List (Nat × Val)))
    (h : groupsLookup (FixGroupParser.ParseGroups parsed dict ng) k = some ins) :
    1 ≤ ins.length ∧
      ∃ v c, parsed.other_tags k = some v ∧ stoiOpt v = some c ∧
        0 < c ∧ c ≤ 100 ∧ (ins.length : Int) ≤ c := by
  unfold groupsLookup at h
  cases hres : FixGroupParser.ParseGroups parsed dict ng with
  | none => rw [hres] at h; exact Option.noConfusion h
  | some l =>
      rw [hres] at h
      simp only [] at h
      obtain ⟨mv, mdef, hmt, hmd, hl⟩ := parseGroups_some_shape parsed dict ng l hres
      rw [← hl] at h
      obtain ⟨hne, hcz, hle⟩ := buildGroupEntries_lookup_forward parsed mdef.groups k ins h
      obtain ⟨v, hv, hs, hpos, hub⟩ := getGroupCount_ne_zero_exists parsed.other_tags k hcz
      refine ⟨?_, v, FixGroupParser.GetGroupCount parsed.other_tags k, hv, hs, hpos, hub, hle⟩
      cases ins with
      | nil => exact absurd rfl hne
      | cons a b => simp

theorem groups_length_bounds_witness :
    groupsLookup (FixGroupParser.ParseGroups
      (FixTokenizer.Parse "35=8|453=2|448=P1|99=x".data '|').1 demoDict true) 453 =
      some [[(448, "P1".data)]] ∧
    (1 ≤ ([[(448, "P1".data)]] : List (List (Nat × Val))).length ∧
      ∃ v c, (FixTokenizer.Parse "35=8|453=2|448=P1|99=x".data '|').1.other_tags 453 = some v ∧
        stoiOpt v = some c ∧ 0 < c ∧ c ≤ 100 ∧
        (([[(448, "P1".data)]] : List (List (Nat × Val))).length : Int) ≤ c) :=
  ⟨by decide, groups_length_bounds
    (FixTokenizer.Parse "35=8|453=2|448=P1|99=x".data '|').1 demoDict true 453
    [[(448, "P1".data)]] (by decide)⟩

/-- C3: full characterization of presence in the groups column.  With
the prerequisites of `ParseGroups` in force (non-empty ordered list,
non-empty MsgType found in the dictionary, distinct count tags in the
message's group map), the entry for count tag `k` is present iff `k` is
a group count tag of the message's definition AND its declared count is
a parseable positive integer at most 100 AND — contrary to the claim's
"no other condition" — the dictionary lists at least one member tag for
the group, tag `k` occurs in the wire-ordered tag list, and the
instance scan starting after it produces at least one non-empty
instance (which requires a member tag right after the count tag). -/
theorem groups_presence_characterization (parsed : ParsedFixMessage)
    (dict : FixDictionary) (k : Nat) (ins : List (List (Nat × Val)))
    (mv : Val) (mdef : FixMessageDef)
    (hmt : parsed.msg_type = some mv) (hmv : mv ≠ [])
    (hord : parsed.all_tags_ordered ≠ [])
    (hmd : dict.messages (String.mk mv) = some mdef)
    (hnd : (mdef.groups.map Prod.fst).Nodup) :
    groupsLookup (FixGroupParser.ParseGroups parsed dict true) k = some ins ↔
      (∃ gdef, lookupFirst mdef.groups k = some gdef ∧
        FixGroupParser.GetGroupCount parsed.other_tags k ≠ 0 ∧
        gdef.field_tags ≠ [] ∧
        FixGroupParser.FindCountTagPosition parsed.all_tags_ordered k <
          parsed.all_tags_ordered.length ∧
        parseInstancesAux (FixGroupParser.GetGroupCount parsed.other_tags k).toNat
          (parsed.all_tags_ordered.drop
            (FixGroupParser.FindCountTagPosition parsed.all_tags_ordered k + 1))
          gdef.field_tags = ins ∧ ins ≠ []) := by
  have hbridge : groupsLookup (FixGroupParser.ParseGroups parsed dict true) k =
      lookupFirst (buildGroupEntries parsed mdef.groups) k := by
    unfold FixGroupParser.ParseGroups
    rw [hmt]
    simp only [Bool.not_true, Bool.false_eq_true, if_false]
    have hg : ¬(parsed.all_tags_ordered.isEmpty = true ∨ mv.isEmpty = true) := by
      push_neg
      exact ⟨by simpa using hord, by simpa using hmv⟩
    rw [if_neg hg, hmd]
    simp only []
    by_cases hent : (buildGroupEntries parsed mdef.groups).isEmpty
    · rw [if_pos hent]
      rw [List.isEmpty_iff.mp hent]
      rfl
    · rw [if_neg hent]
      rfl
  rw [hbridge]
  exact buildGroupEntries_lookup_char parsed mdef.groups hnd k ins

/-- C3 counterexample: in `"35=8|453=2|99=x"` the count tag 453 is
defined for message type 8 in the demo dictionary and carries the value
`"2"`, which `stoi` reads as the small positive integer 2 — the two
conditions the claim says suffice — yet the groups structure has no
entry for 453, because no member tag follows the count tag and the
instance list comes back empty. -/
theorem groups_presence_claim_false :
    lookupFirst demoMsgDef.groups 453 = some demoGroupDef ∧
    demoDict.messages "8" = some demoMsgDef ∧
    (FixTokenizer.Parse "35=8|453=2|99=x".data '|').1.msg_type = some "8".data ∧
    (FixTokenizer.Parse "35=8|453=2|99=x".data '|').1.other_tags 453 = some "2".data ∧
    stoiOpt "2".data = some 2 ∧ (0 : Int) < 2 ∧ (2 : Int) ≤ 100 ∧
    groupsLookup (FixGroupParser.ParseGroups
      (FixTokenizer.Parse "35=8|453=2|99=x".data '|').1 demoDict true) 453 = none := by
  decide

theorem groups_presence_characterization_witness :
    groupsLookup (FixGroupParser.ParseGroups
      (FixTokenizer.Parse "35=8|453=1|448=P1|99=x".data '|').1 demoDict true) 453 =
      some [[(448, "P1".data)]] :=
  (groups_presence_characterization
      (FixTokenizer.Parse "35=8|453=1|448=P1|99=x".data '|').1 demoDict 453
      [[(448, "P1".data)]] "8".data demoMsgDef
      (by decide) (by decide) (by decide) (by decide) (by decide)).mpr
    ⟨demoGroupDef, by decide, by decide, by decide, by decide, by decide, by decide⟩

/-! ## Bind-time custom tag resolution (`ReadFixBind`,
read_fix_function.cpp:136-197)

The `rtags` loop resolves each name through the dictionary's
`name_to_tag` map and throws a `BinderException` for an unknown name;
the `tagIds` loop accepts unknown numbers, naming them `Tag<N>`; both
loops push `{name, tag}` onto `custom_tags` only when the tag number is
not yet in the `added_tags` set.  The set and the output vector travel
together as the state pair `(added_tags, custom_tags)`. -/

/-- The column name the `tagIds` loop picks: the dictionary field name
when the tag is known, else `"Tag" ++ N`. -/
def tagIdName (dict : FixDictionary) (t : Nat) : String :=
  match dict.fields t with
  | none => "Tag" ++ toString t
  | some f => f.name

/-- The guarded push shared by both loops: skip when `tag` is already
in `added_tags`, else insert it and append the column. -/
def addCustomTag (name : String) (tag : Nat)
    (st : List Nat × List (String × Nat)) : List Nat × List (String × Nat) :=
  if tag ∈ st.1 then st else (tag :: st.1, st.2 ++ [(name, tag)])

/-- The `rtags` loop of `ReadFixBind`. -/
def resolveRtags (dict : FixDictionary) :
    List String → List Nat × List (String × Nat) →
      Except String (List Nat × List (String × Nat))
  | [], st => .ok st
  | name :: rest, st =>
      match dict.name_to_tag name with
      | none => .error ("Invalid tag name in rtags: '" ++ name ++
          "'. Tag not found in FIX dictionary.")
      | some t => resolveRtags dict rest (addCustomTag name t st)

/-- The `tagIds` loop of `ReadFixBind`. -/
def resolveTagIds (dict : FixDictionary) :
    List Nat → List Nat × List (String × Nat) → List Nat × List (String × Nat)
  | [], st => st
  | t :: rest, st => resolveTagIds dict rest (addCustomTag (tagIdName dict t) t st)

/-- `ReadFixBind`'s custom-tag phase: the `rtags` loop, then the
`tagIds` loop, starting from an empty set and vector; the final
`custom_tags` vector is the result. -/
def resolveCustomTags (dict : FixDictionary) (rtags : List String)
    (tagIds : List Nat) : Except String (List (String × Nat)) :=
  match resolveRtags dict rtags ([], []) with
  | .error e => .error e
  | .ok st => .ok (resolveTagIds dict tagIds st).2

/-- Spec-side dedup: keep the first occurrence of each tag number,
threading the seen set; returns (final seen set, kept columns). -/
def dedupByTag : List (String × Nat) → List Nat → List Nat × List (String × Nat)
  | [], seen => (seen, [])
  | (n, t) :: rest, seen =>
      if t ∈ seen then dedupByTag rest seen
      else
        let p := dedupByTag rest (t :: seen)
        (p.1, (n, t) :: p.2)

/-- Spec-side tag number for a known `rtags` name. -/
def rtagNum (dict : FixDictionary) (n : String) : Nat :=
  (dict.name_to_tag n).getD 0

theorem resolveTagIds_eq (dict : FixDictionary) (ts : List Nat)
    (seen : List Nat) (acc : List (String × Nat)) :
    resolveTagIds dict ts (seen, acc) =
      ((dedupByTag (ts.map fun t => (tagIdName dict t, t)) seen).1,
       acc ++ (dedupByTag (ts.map fun t => (tagIdName dict t, t)) seen).2) := by
  induction ts generalizing seen acc with
  | nil => simp [resolveTagIds, dedupByTag]
  | cons t rest ih =>
      simp only [resolveTagIds, List.map_cons, dedupByTag, addCustomTag]
      by_cases ht : t ∈ seen
      · rw [if_pos ht, if_pos ht]
        exact ih seen acc
      · rw [if_neg ht, if_neg ht]
        rw [ih (t :: seen) (acc ++ [(tagIdName dict t, t)])]
        simp

theorem resolveRtags_eq_of_known (dict : FixDictionary) (ns : List String)
    (seen : List Nat) (acc : List (String × Nat))
    (h : ∀ n ∈ ns, dict.name_to_tag n ≠ none) :
    resolveRtags dict ns (seen, acc) =
      .ok ((dedupByTag (ns.map fun n => (n, rtagNum dict n)) seen).1,
           acc ++ (dedupByTag (ns.map fun n => (n, rtagNum dict n)) seen).2) := by
  induction ns generalizing seen acc with
  | nil => simp [resolveRtags, dedupByTag]
  | cons name rest ih =>
      have hname := h name (by simp)
      cases hn : dict.name_to_tag name with
      | none => exact absurd hn hname
      | some t =>
          have hrt : rtagNum dict name = t := by simp [rtagNum, hn]
          simp only [resolveRtags, hn, List.map_cons, hrt, dedupByTag, addCustomTag]
          by_cases ht : t ∈ seen
          · rw [if_pos ht, if_pos ht]
            exact ih seen acc (fun n hm => h n (by simp [hm]))
          · rw [if_neg ht, if_neg ht]
            rw [ih (t :: seen) (acc ++ [(name, t)]) (fun n hm => h n (by simp [hm]))]
            simp

theorem resolveRtags_error_iff (dict : FixDictionary) (ns : List String)
    (st : List Nat × List (String × Nat)) :
    (∃ e, resolveRtags dict ns st = .error e) ↔
      ∃ n ∈ ns, dict.name_to_tag n = none := by
  induction ns generalizing st with
  | nil => simp [resolveRtags]
  | cons name rest ih =>
      cases hn : dict.name_to_tag name with
      | none =>
          refine iff_of_true ⟨"Invalid tag name in rtags: '" ++ name ++
            "'. Tag not found in FIX dictionary.", by simp [resolveRtags, hn]⟩
            ⟨name, by simp, hn⟩
      | some t =>
          simp only [resolveRtags, hn]
          rw [ih (addCustomTag name t st)]
          constructor
          · rintro ⟨n, hm, hnn⟩
            exact ⟨n, by simp [hm], hnn⟩
          · rintro ⟨n, hm, hnn⟩
            rcases List.mem_cons.mp hm with he | hm2
            · rw [he] at hnn
              rw [hnn] at hn
              exact Option.noConfusion hn
            · exact ⟨n, hm2, hnn⟩

theorem dedupByTag_append (l1 l2 : List (String × Nat)) (seen : List Nat) :
    dedupByTag (l1 ++ l2) seen =
      ((dedupByTag l2 (dedupByTag l1 seen).1).1,
       (dedupByTag l1 seen).2 ++ (dedupByTag l2 (dedupByTag l1 seen).1).2) := by
  induction l1 generalizing seen with
  | nil => simp [dedupByTag]
  | cons p rest ih =>
      obtain ⟨n, t⟩ := p
      simp only [List.cons_append, dedupByTag, List.append_eq]
      by_cases ht : t ∈ seen
      · rw [if_pos ht, if_pos ht]
        exact ih seen
      · rw [if_neg ht, if_neg ht]
        rw [ih (t :: seen)]
        simp

theorem dedupByTag_nodup (l : List (String × Nat)) (seen : List Nat) :
    ((dedupByTag l seen).2.map Prod.snd).Nodup ∧
      ∀ t ∈ (dedupByTag l seen).2.map Prod.snd, t ∉ seen := by
  induction l generalizing seen with
  | nil => simp [dedupByTag]
  | cons p rest ih =>
      obtain ⟨n, t⟩ := p
      simp only [dedupByTag]
      by_cases ht : t ∈ seen
      · rw [if_pos ht]
        exact ih seen
      · rw [if_neg ht]
        obtain ⟨hnd, hout⟩ := ih (t :: seen)
        refine ⟨?_, ?_⟩
        · simp only [List.map_cons, List.nodup_cons]
          refine ⟨?_, hnd⟩
          intro hmem
          exact hout t hmem (by simp)
        · intro u hu hus
          simp only [List.map_cons, List.mem_cons] at hu
          rcases hu with he | hu2
          · rw [he] at hus; exact ht hus
          · exact hout u hu2 (by simp [hus])

/-- C6: bind-time custom-tag resolution.  (1) The phase throws a bind
error iff some name in the `rtags` list is missing from the
dictionary's name-to-tag map; (2) when every name resolves, the result
is exactly the first-seen-order dedup (by tag number) of the resolved
`rtags` columns followed by the `tagIds` columns, so across both lists
duplicates collapse onto the first occurrence; (3) a `tagIds` number
unknown to the dictionary is accepted, its column named `Tag<N>`; and
the emitted tag numbers are pairwise distinct. -/
theorem custom_tags_resolution (dict : FixDictionary) (rtags : List String)
    (tagIds : List Nat) :
    ((∃ e, resolveCustomTags dict rtags tagIds = .error e) ↔
      ∃ n ∈ rtags, dict.name_to_tag n = none) ∧
    ((∀ n ∈ rtags, dict.name_to_tag n ≠ none) →
      resolveCustomTags dict rtags tagIds =
        .ok (dedupByTag (rtags.map (fun n => (n, rtagNum dict n)) ++
              tagIds.map (fun t => (tagIdName dict t, t))) []).2 ∧
      (∀ t, dict.fields t = none → tagIdName dict t = "Tag" ++ toString t) ∧
      ((dedupByTag (rtags.map (fun n => (n, rtagNum dict n)) ++
          tagIds.map (fun t => (tagIdName dict t, t))) []).2.map Prod.snd).Nodup) := by
  constructor
  · unfold resolveCustomTags
    cases hres : resolveRtags dict rtags ([], []) with
    | error e =>
        refine iff_of_true ⟨e, rfl⟩ ?_
        exact (resolveRtags_error_iff dict rtags ([], [])).mp ⟨e, hres⟩
    | ok st =>
        refine iff_of_false ?_ ?_
        · rintro ⟨e, he⟩
          exact Except.noConfusion he
        · intro hex
          obtain ⟨e, he⟩ := (resolveRtags_error_iff dict rtags ([], [])).mpr hex
          rw [hres] at he
          exact Except.noConfusion he
  · intro h
    refine ⟨?_, fun t ht => by simp [tagIdName, ht], (dedupByTag_nodup _ []).1⟩
    unfold resolveCustomTags
    rw [resolveRtags_eq_of_known dict rtags [] [] h]
    simp only []
    rw [resolveTagIds_eq]
    rw [dedupByTag_append]
    simp

def demoBindDict : FixDictionary :=
  { fields := fun t => if t = 55 then some { tag := 55, name := "Symbol" } else none,
    name_to_tag := fun s => if s = "Symbol" then some 55 else none }

theorem custom_tags_resolution_witness :
    ((∃ e, resolveCustomTags demoBindDict ["Symbol"] [9999, 55, 9999] = .error e) ↔
      ∃ n ∈ ["Symbol"], demoBindDict.name_to_tag n = none) ∧
    resolveCustomTags demoBindDict ["Symbol"] [9999, 55, 9999] =
      .ok [("Symbol", 55), ("Tag9999", 9999)] ∧
    (∃ e, resolveCustomTags demoBindDict ["Unknown"] [] = .error e) := by
  have h := custom_tags_resolution demoBindDict ["Symbol"] [9999, 55, 9999]
  refine ⟨h.1, ?_, ?_⟩
  · rw [(h.2 (by decide)).1]
    rfl
  · exact (custom_tags_resolution demoBindDict ["Unknown"] []).1.mpr
      ⟨"Unknown", by decide, by decide⟩

/-! ## Bind-time dictionary resolution (`ReadFixBind`,
read_fix_function.cpp:107-120)

`dict_path` starts as the relative path `"dialects/FIX44.xml"`, is
replaced by the `dictionary` named parameter when the user supplied
one, and is then always handed to
`FixDictionaryLoader::LoadBase(context, dict_path)`, which opens it
through the FileSystem API; `GetEmbeddedFix44Dictionary` (the byte
array compiled into the binary) is declared but never called on this
path. -/

/-- Where a bind gets its dictionary from: an external file path opened
through the FileSystem API, or the embedded FIX-4.4 byte array. -/
inductive DictSource where
  | file (path : String)
  | embedded
deriving DecidableEq

/-- Modelled from `ReadFixBind`: the user path when the `dictionary`
option is present, else the fixed relative file path — never the
embedded array. -/
def readFixBindDictSource (dictionary_param : Option String) : DictSource :=
  .file (dictionary_param.getD "dialects/FIX44.xml")

/-- The documented resolution (user guide and testdata README): the
user-provided path when set, else the built-in FIX-4.4 dictionary
embedded in the binary as a byte array. -/
def specDictSource (dictionary_param : Option String) : DictSource :=
  match dictionary_param with
  | some p => .file p
  | none => .embedded

/-- C7: with the `dictionary` option set the code follows the
documentation (it opens the user's path), but with the option absent it
resolves to the external relative path `"dialects/FIX44.xml"` opened
through the FileSystem API, not to the embedded FIX-4.4 byte-array
dictionary the documentation promises — the two resolutions differ
exactly on the default case. -/
theorem default_dictionary_divergence :
    (∀ p, readFixBindDictSource (some p) = specDictSource (some p)) ∧
    readFixBindDictSource none = DictSource.file "dialects/FIX44.xml" ∧
    readFixBindDictSource none ≠ specDictSource none :=
  ⟨fun p => rfl, rfl, by decide⟩
